import Mathlib

/-!
Verification of the adaptive form-filling engine of the resume-optimizer
repository.  Each Python service relevant to the checked claims is shallowly
embedded below: pure computations become Lean functions over `String`, `Nat`,
`Int` and `ℚ` (floats are modelled by exact rationals), stateful browser
interaction is modelled by explicit environment records, and Python
exceptions are modelled with `Except`/`Option`.

The file has two parts: first all definitions, then all theorems.
-/

-- Rational arithmetic must evaluate inside `decide`/`rfl` proofs below;
-- these Batteries definitions are `@[irreducible]` by default.
unseal Rat.mul Rat.add Rat.sub Rat.inv

namespace FormFiller

/-! # Part 1 — Definitions

## Shared helpers modelling Python primitives -/

/-- Python's substring test `needle in haystack` on strings: the needle is a
contiguous substring of the haystack (the empty needle always matches). -/
def pyIn (needle haystack : String) : Bool :=
  let n := needle.toList
  let h := haystack.toList
  (List.range (h.length + 1)).any fun i => n.isPrefixOf (h.drop i)

/-- Python's `str.lower()` (ASCII case folding, which is all the source uses). -/
def pyLower (s : String) : String := String.mk (s.toList.map Char.toLower)

/-- Python's `str.upper()`. -/
def pyUpper (s : String) : String := String.mk (s.toList.map Char.toUpper)

/-- Python's `str.strip()` (whitespace trimming at both ends). -/
def pyStrip (s : String) : String :=
  String.mk
    (((s.toList.dropWhile Char.isWhitespace).reverse.dropWhile
      Char.isWhitespace).reverse)

/-- Split a character list at every separator recognized by `p` (empty
segments included, as in Python's `str.split(sep)`). -/
def splitCharsAux (p : Char → Bool) : List Char → List Char → List (List Char)
  | [], acc => [acc.reverse]
  | c :: rest, acc =>
    if p c then acc.reverse :: splitCharsAux p rest []
    else splitCharsAux p rest (c :: acc)

/-- Split a string at every character recognized by `p`. -/
def pySplit (p : Char → Bool) (s : String) : List String :=
  (splitCharsAux p s.toList []).map String.mk

/-- Structural worker for `chunksOf`; the first argument is a recursion
bound that is kept at least the list length, so it never runs out. -/
def chunksOfAux : ℕ → ℕ → List α → List (List α)
  | _, _, [] => []
  | 0, _, _ :: _ => []
  | _ + 1, 0, _ :: _ => []
  | bound + 1, n + 1, x :: xs => (x :: xs.take n) :: chunksOfAux bound (n + 1) (xs.drop n)

/-- Python's slice loop `for i in range(0, len(l), n): l[i:i+n]` for `n > 0`:
consecutive chunks of size `n`, the last one possibly smaller.  The `n = 0`
case is unreachable in the source (chunk sizes are 3, 20 and 50). -/
def chunksOf (n : ℕ) (l : List α) : List (List α) :=
  chunksOfAux l.length n l

/-- Python dict assignment `d[k] = v` on an insertion-ordered association
list with unique keys: replace the value at the existing position of `k`, or
append a new binding at the end. -/
def setKey : List (String × α) → String → α → List (String × α)
  | [], k, v => [(k, v)]
  | p :: rest, k, v =>
    if p.1 = k then (k, v) :: rest else p :: setKey rest k v

/-- Python dict read `d.get(k)` on an association list. -/
def dGet (d : List (String × α)) (k : String) : Option α :=
  (d.find? fun p => p.1 = k).map (·.2)

/-- Python `d.update(upd)`: assign every binding of `upd` into `d` in order
(later occurrences of a key overwrite earlier ones). -/
def dictUpdate (d upd : List (String × α)) : List (String × α) :=
  upd.foldl (fun acc p => setKey acc p.1 p.2) d

/-! ### `difflib.SequenceMatcher` (no junk: every string compared in this
code base is far below the 200-character autojunk threshold) -/

/-- Length of the longest common prefix of two character lists. -/
def commonPrefixLen : List Char → List Char → ℕ
  | a :: as, b :: bs => if a = b then commonPrefixLen as bs + 1 else 0
  | _, _ => 0

/-- `SequenceMatcher.find_longest_match` over the whole strings: the longest
matching contiguous block `(i, j, k)` with `a[i:i+k] = b[j:j+k]`; among the
longest blocks the one starting earliest in `a`, then earliest in `b`. -/
def findLongestMatch (a b : List Char) : ℕ × ℕ × ℕ :=
  (List.range (a.length + 1)).foldl
    (fun best i =>
      (List.range (b.length + 1)).foldl
        (fun best j =>
          let k := commonPrefixLen (a.drop i) (b.drop j)
          if k > best.2.2 then (i, j, k) else best)
        best)
    (0, 0, 0)

/-- `commonPrefixLen` is bounded by both list lengths. -/
theorem commonPrefixLen_le_left : ∀ (a b : List Char), commonPrefixLen a b ≤ a.length
  | [], _ => by simp [commonPrefixLen]
  | _ :: _, [] => by simp [commonPrefixLen]
  | a :: as, b :: bs => by
    simp only [commonPrefixLen, List.length_cons]
    split
    · exact Nat.succ_le_succ (commonPrefixLen_le_left as bs)
    · exact Nat.zero_le _

/-- `commonPrefixLen` is bounded by both list lengths. -/
theorem commonPrefixLen_le_right : ∀ (a b : List Char), commonPrefixLen a b ≤ b.length
  | [], _ => by simp [commonPrefixLen]
  | _ :: _, [] => by simp [commonPrefixLen]
  | a :: as, b :: bs => by
    simp only [commonPrefixLen, List.length_cons]
    split
    · exact Nat.succ_le_succ (commonPrefixLen_le_right as bs)
    · exact Nat.zero_le _

/-- The block returned by `findLongestMatch` lies inside both strings. -/
theorem findLongestMatch_bounds (a b : List Char) :
    (findLongestMatch a b).1 + (findLongestMatch a b).2.2 ≤ a.length ∧
    (findLongestMatch a b).2.1 + (findLongestMatch a b).2.2 ≤ b.length := by
  rw [findLongestMatch]
  apply List.foldlRecOn _ _ (motive := fun best : ℕ × ℕ × ℕ =>
    best.1 + best.2.2 ≤ a.length ∧ best.2.1 + best.2.2 ≤ b.length)
  · simp
  · intro best hbest i hi
    rw [List.mem_range] at hi
    apply List.foldlRecOn _ _ (motive := fun best : ℕ × ℕ × ℕ =>
      best.1 + best.2.2 ≤ a.length ∧ best.2.1 + best.2.2 ≤ b.length)
    · exact hbest
    · intro best2 hbest2 j hj
      rw [List.mem_range] at hj
      dsimp only
      split
      · refine ⟨?_, ?_⟩
        · have h1 := commonPrefixLen_le_left (a.drop i) (b.drop j)
          simp only [List.length_drop] at h1
          simp only []
          omega
        · have h2 := commonPrefixLen_le_right (a.drop i) (b.drop j)
          simp only [List.length_drop] at h2
          simp only []
          omega
      · exact hbest2

/-- Structural worker for `matchesTotal`.  The recursion bound only drives
structural recursion: by `findLongestMatch_bounds` both recursive calls
strictly shrink the first string, so a bound of at least `a.length + 1`
never runs out. -/
def matchesTotalAux : ℕ → List Char → List Char → ℕ
  | 0, _, _ => 0
  | bound + 1, a, b =>
    if (findLongestMatch a b).2.2 = 0 then 0
    else
      matchesTotalAux bound (a.take (findLongestMatch a b).1)
          (b.take (findLongestMatch a b).2.1) +
        (findLongestMatch a b).2.2 +
        matchesTotalAux bound
          (a.drop ((findLongestMatch a b).1 + (findLongestMatch a b).2.2))
          (b.drop ((findLongestMatch a b).2.1 + (findLongestMatch a b).2.2))

/-- `SequenceMatcher.get_matching_blocks` total match count: recursively
split around the longest matching block. -/
def matchesTotal (a b : List Char) : ℕ :=
  matchesTotalAux (a.length + 1) a b

/-- `SequenceMatcher.ratio()`: `2*M / (len(a)+len(b))`, and `1.0` for two
empty strings. -/
def ratio (a b : String) : ℚ :=
  let la := a.toList.length
  let lb := b.toList.length
  if la + lb = 0 then 1
  else 2 * (matchesTotal a.toList b.toList : ℚ) / ((la : ℚ) + (lb : ℚ))

/-! ### Python values and built-in conversions

Dynamically typed payloads (LLM JSON output, action `value`s) are modelled
by `PVal`.  Dicts are insertion-ordered association lists with unique keys. -/

inductive PVal where
  | pstr (s : String)
  | pint (n : ℤ)
  | pfloat (q : ℚ)
  | pbool (b : Bool)
  | pnone
  | plist (l : List PVal)
  | pdict (d : List (String × PVal))
deriving BEq

/-- Value of a digit string, most significant digit first. -/
def natFromDigits (ds : List Char) : ℕ :=
  ds.foldl (fun a c => a * 10 + (c.toNat - '0'.toNat)) 0

/-- Python `str(x)`.  Renderings of floats, lists and dicts are abstracted
(no checked claim depends on them); strings, ints, bools and `None` render
exactly as Python does. -/
def pyStr : PVal → String
  | .pstr s => s
  | .pint n => toString n
  | .pbool b => if b then "True" else "False"
  | .pnone => "None"
  | .pfloat _ => "<float>"
  | .plist _ => "<list>"
  | .pdict _ => "<dict>"

/-- Python `float(s)` on a string: simple decimal literals (the only ones
LLM payloads contain); anything else raises, modelled by `none`. -/
def parseDecimal? (s : String) : Option ℚ :=
  let cs := (pyStrip s).toList
  let (sign, cs) :=
    match cs with
    | '-' :: rest => ((-1 : ℚ), rest)
    | '+' :: rest => ((1 : ℚ), rest)
    | _ => ((1 : ℚ), cs)
  match splitCharsAux (· = '.') cs [] with
  | [intPart] =>
    if !intPart.isEmpty && intPart.all Char.isDigit then
      some (sign * (natFromDigits intPart : ℚ))
    else none
  | [intPart, fracPart] =>
    if (!intPart.isEmpty || !fracPart.isEmpty) &&
        intPart.all Char.isDigit && fracPart.all Char.isDigit then
      some (sign * ((natFromDigits intPart : ℚ) +
        (natFromDigits fracPart : ℚ) / (10 : ℚ) ^ fracPart.length))
    else none
  | _ => none

/-- Python `int(s)` on a string. -/
def parseIntStr? (s : String) : Option ℤ :=
  let cs := (pyStrip s).toList
  let (sign, cs) :=
    match cs with
    | '-' :: rest => ((-1 : ℤ), rest)
    | '+' :: rest => ((1 : ℤ), rest)
    | _ => ((1 : ℤ), cs)
  if !cs.isEmpty && cs.all Char.isDigit then
    some (sign * (natFromDigits cs : ℤ))
  else none

/-- Python `float(x)`: succeeds on numbers, bools and numeric strings,
raises (`none`) otherwise. -/
def pyFloat? : PVal → Option ℚ
  | .pint n => some (n : ℚ)
  | .pfloat q => some q
  | .pbool b => some (if b then 1 else 0)
  | .pstr s => parseDecimal? s
  | _ => none

/-- Python `int(x)`: truncation toward zero for floats, parse for strings,
raises (`none`) otherwise. -/
def pyInt? : PVal → Option ℤ
  | .pint n => some n
  | .pfloat q => some (q.num.tdiv (q.den : ℤ))
  | .pbool b => some (if b then 1 else 0)
  | .pstr s => parseIntStr? s
  | _ => none

/-- Python `isinstance(x, (int, float))` together with the numeric value
(`bool` is a subclass of `int` in Python). -/
def pyNum? : PVal → Option ℚ
  | .pint n => some (n : ℚ)
  | .pfloat q => some q
  | .pbool b => some (if b then 1 else 0)
  | _ => none

/-- Python `isinstance(x, int)` together with the value. -/
def pyIsInt? : PVal → Option ℤ
  | .pint n => some n
  | .pbool b => some (if b then 1 else 0)
  | _ => none

/-! ## `enhanced_data_manager.py` — profile value normalization -/

namespace EnhancedDataManager

/-- `re.sub(r'[^\d]', '', s)`: the digit characters of a string. -/
def digitsOf (s : String) : List Char := s.toList.filter Char.isDigit

/-- `_format_phone`: 10 digits become `(NXX) NXX-XXXX`; 11 digits with a
leading `1` drop the country code; anything else is returned unchanged. -/
def formatPhone (phone : String) : String :=
  if phone = "" then ""
  else
    let digits := digitsOf phone
    if digits.length = 10 then
      "(" ++ String.mk (digits.take 3) ++ ") " ++
        String.mk ((digits.drop 3).take 3) ++ "-" ++ String.mk (digits.drop 6)
    else if digits.length = 11 ∧ digits.head? = some '1' then
      "(" ++ String.mk ((digits.drop 1).take 3) ++ ") " ++
        String.mk ((digits.drop 4).take 3) ++ "-" ++ String.mk (digits.drop 7)
    else phone

/-- Python's thousands formatting `f"{n:,}"`: decimal digits grouped in
threes from the right, separated by commas. -/
def commaGroup (n : ℕ) : String :=
  String.mk ((List.intercalate [','] (chunksOf 3 (Nat.repr n).toList.reverse)).reverse)

/-- `_format_salary`: keep only the digits and regroup them with thousands
separators (`int()` strips leading zeros); a salary without digits is
returned unchanged. -/
def formatSalary (salary : String) : String :=
  if salary = "" then ""
  else
    let ds := digitsOf salary
    if ds ≠ [] then commaGroup (natFromDigits ds) else salary

/-- `_normalize_value`: return the first (canonical) variant of the entry
whose variant list contains the lowercased value. -/
def normalizeValue (value : String) (valueMap : List (String × List String)) : String :=
  if value = "" then ""
  else
    let vs := pyLower value
    match valueMap.find? (fun p => (p.2.map pyLower).contains vs) with
    | some p => p.2.headD ""
    | none => value

/-- The `value_map` of the `work_authorization` field mapping. -/
def workAuthorizationValueMap : List (String × List String) :=
  [("yes", ["Yes", "Authorized", "Eligible", "Permitted"]),
   ("no", ["No", "Not Authorized", "Not Eligible", "Requires Sponsorship"])]

end EnhancedDataManager

/-! ## `dom_snapshot.py` — snapshot grouping -/

namespace DOMSnapshot

/-- A snapshot element; `_group_elements_by_logic` reads only
`logicalGroup`, the rest of the payload is represented by `idx`. -/
structure SnapElem where
  idx : ℕ
  logicalGroup : String
deriving DecidableEq

/-- One output group of `_group_elements_by_logic`. -/
structure SnapGroup where
  groupName : String
  elements : List SnapElem
deriving DecidableEq

/-- `groups[group_name].append(element)` on the insertion-ordered dict of
buckets (creating the bucket on first use). -/
def appendToBucket : List (String × List SnapElem) → SnapElem →
    List (String × List SnapElem)
  | [], e => [(e.logicalGroup, [e])]
  | p :: rest, e =>
    if p.1 = e.logicalGroup then (p.1, p.2 ++ [e]) :: rest
    else p :: appendToBucket rest e

/-- The first loop of `_group_elements_by_logic`: bucket the elements by
`logicalGroup` in first-occurrence order. -/
def groupPairs (elements : List SnapElem) : List (String × List SnapElem) :=
  elements.foldl appendToBucket []

/-- `_group_elements_by_logic`: buckets of at most `maxGroupSize` elements
stay whole; larger buckets are split into consecutive chunks named
`<name>_part1`, `<name>_part2`, …. -/
def groupElementsByLogic (elements : List SnapElem) (maxGroupSize : ℕ) :
    List SnapGroup :=
  (groupPairs elements).flatMap fun p =>
    if p.2.length ≤ maxGroupSize then [⟨p.1, p.2⟩]
    else (chunksOf maxGroupSize p.2).enum.map fun q =>
      ⟨p.1 ++ "_part" ++ toString (q.1 + 1), q.2⟩

/-- The page side of `generate_snapshot`: the scripted DOM walk either
produces the element list or raises. -/
structure SnapshotEnv where
  evaluate : Except String (List SnapElem)

/-- `generate_snapshot` (with the default `context_window_size = 50`): group
the extracted elements; any internal failure is caught and yields `[]`. -/
def generateSnapshot (env : SnapshotEnv) : Except String (List SnapGroup) :=
  match env.evaluate with
  | .ok elems => .ok (groupElementsByLogic elems 50)
  | .error _ => .ok []

end DOMSnapshot

/-! ## `smart_form_filler.py` — chunked field analysis -/

namespace SmartFormFiller

/-- `_analyze_fields_in_chunks` (default `chunk_size = 20`), with the
per-batch analysis (`_analyze_fields_batch`, an LLM call) abstracted as the
function `batch`: process consecutive chunks and merge the per-chunk
mappings with `dict.update`. -/
def analyzeFieldsInChunks (batch : List β → List (String × α))
    (formFields : List β) (chunkSize : ℕ) : List (String × α) :=
  (chunksOf chunkSize formFields).foldl
    (fun acc chunk => dictUpdate acc (batch chunk)) []

/-- `analyze_and_match_fields`: more than 30 fields are processed in chunks
of 20, otherwise a single batch. -/
def analyzeAndMatchFields (batch : List β → List (String × α))
    (formFields : List β) : List (String × α) :=
  if formFields.length > 30 then analyzeFieldsInChunks batch formFields 20
  else batch formFields

end SmartFormFiller

/-! ## `pro_form_filler.py` — rule-based fallback analysis -/

namespace ProFormFiller

/-- The element attributes read by `_fallback_analysis`. -/
structure PfElem where
  label : String
  placeholder : String
  ariaLabel : String
  name : String
  id : String
deriving DecidableEq

/-- An action dict produced by the mapper (`None`-able keys are `Option`). -/
structure RawAction where
  selector : Option String
  control : Option String
  value : Option String
  semantic : Option String
  confidence : Option ℚ
deriving DecidableEq

/-- The ordered rule table of `_fallback_analysis`:
keywords ↦ (data key, control type). -/
def fallbackRules : List (List String × String × String) :=
  [(["first", "name"], "first_name", "text"),
   (["last", "name"], "last_name", "text"),
   (["email"], "email", "text"),
   (["phone"], "phone", "text"),
   (["linkedin"], "linkedin", "text"),
   (["github"], "github", "text"),
   (["portfolio", "website"], "portfolio", "text"),
   (["authorized", "work"], "work_authorization", "text"),
   (["resume", "upload", "cv"], "resume_path", "file")]

/-- The profile dict as read by `_fallback_analysis`:
`personal_data.get(key, '')` plus the nested
`personal_data.get('resume', {}).get('file_path', '')`. -/
structure PersonalData where
  get : String → String
  resumeFilePath : String

/-- The value looked up for a rule's data key (`resume_path` reads the
nested resume file path). -/
def ruleValue (pd : PersonalData) (dataKey : String) : String :=
  if dataKey = "resume_path" then pd.resumeFilePath else pd.get dataKey

/-- `' '.join(texts).lower()` over label, placeholder, aria-label, name, id. -/
def combinedText (e : PfElem) : String :=
  pyLower (String.intercalate " " [e.label, e.placeholder, e.ariaLabel, e.name, e.id])

/-- The per-element body of `_fallback_analysis`: the first rule with any
keyword contained in the combined text and a non-empty profile value fires;
the selector prefers `#id`, then `[name='…']`, otherwise no action; every
produced action has confidence 0.7. -/
def elemFallbackAction (pd : PersonalData) (e : PfElem) : Option RawAction :=
  let combined := combinedText e
  match fallbackRules.find? (fun r =>
      r.1.any (fun kw => pyIn kw combined) && !(ruleValue pd r.2.1 == "")) with
  | none => none
  | some r =>
    if e.id ≠ "" then
      some ⟨some ("#" ++ e.id), some r.2.2, some (ruleValue pd r.2.1),
        some r.2.1, some (7/10)⟩
    else if e.name ≠ "" then
      some ⟨some ("[name=\x27" ++ e.name ++ "\x27]"), some r.2.2,
        some (ruleValue pd r.2.1), some r.2.1, some (7/10)⟩
    else none

/-- `_fallback_analysis` over a group's elements. -/
def fallbackAnalysis (group : List PfElem) (pd : PersonalData) : List RawAction :=
  group.filterMap (elemFallbackAction pd)

/-- `_validate_action`: `selector`, `control`, `value` keys present,
selector a non-empty string, control in the closed set. -/
def validControls : List String :=
  ["text", "email", "tel", "url", "number", "select", "radio", "checkbox",
   "file", "date", "datetime-local", "textarea", "custom-dropdown"]

/-- `_validate_action` as a predicate on an action dict. -/
def validateAction (a : RawAction) : Bool :=
  match a.selector, a.control, a.value with
  | some s, some c, some _ => !(s == "") && validControls.contains c
  | _, _, _ => false

/-- The file-path re-injection after validation: a `file` action with a
falsy value receives the resume path. -/
def fixFileValue (resumePath : String) (a : RawAction) : RawAction :=
  if a.control = some "file" ∧ (a.value = some "" ∨ a.value = none) then
    { a with value := some resumePath }
  else a

/-- Shape of the LLM response to `_analyze_element_group`: the call raised,
returned a JSON array, returned a dict with an `actions` key, or returned
anything else. -/
inductive LLMResponse where
  | exn
  | arr (actions : List RawAction)
  | dictActions (actions : List RawAction)
  | other

/-- `_analyze_element_group` after the LLM call: an exception falls back to
the rule table; an array or an `actions` dict is validated and file-fixed;
any other shape yields no actions. -/
def analyzeElementGroup (resp : LLMResponse) (group : List PfElem)
    (pd : PersonalData) (resumePath : String) : List RawAction :=
  match resp with
  | .exn => fallbackAnalysis group pd
  | .arr actions => (actions.filter validateAction).map (fixFileValue resumePath)
  | .dictActions actions => (actions.filter validateAction).map (fixFileValue resumePath)
  | .other => []

end ProFormFiller

/-! ## `action_executor.py` — deterministic execution primitives -/

namespace ActionExecutor

/-- A native `<select>` option as harvested by `_select_option`. -/
structure ExOption where
  value : String
  text : String
  index : ℕ
deriving DecidableEq

/-- One `field in ['value', 'text']` iteration of `_fuzzy_match_option`:
exact lowercase equality returns the option immediately (modelled by
`Except.error`), otherwise the running best score is updated with 0.8 for
containment in either direction or the `SequenceMatcher` ratio. -/
def fieldStep (tl : String) (opt : ExOption) (fieldVal : String)
    (acc : ℚ × Option ExOption) : Except ExOption (ℚ × Option ExOption) :=
  let ot := pyStrip (pyLower fieldVal)
  if ot = tl then .error opt
  else
    let score := if pyIn tl ot || pyIn ot tl then (4/5 : ℚ) else ratio tl ot
    if score > acc.1 then .ok (score, some opt) else .ok acc

/-- The option loop of `_fuzzy_match_option`. -/
def fuzzyGo (tl : String) : List ExOption → (ℚ × Option ExOption) →
    Except ExOption (ℚ × Option ExOption)
  | [], acc => .ok acc
  | o :: rest, acc => do
    let acc1 ← fieldStep tl o o.value acc
    let acc2 ← fieldStep tl o o.text acc1
    fuzzyGo tl rest acc2

/-- `_fuzzy_match_option`: exact lowercase match wins immediately; otherwise
the best-scoring option is returned when its score exceeds 0.6. -/
def fuzzyMatchOption (target : String) (options : List ExOption) :
    Option ExOption :=
  let tl := pyStrip (pyLower target)
  match fuzzyGo tl options (0, none) with
  | .error opt => some opt
  | .ok acc => if acc.1 > 3/5 then acc.2 else none

/-- The execution-result record built by `execute_action`. -/
structure ExecResult where
  success : Bool
  selector : String
  control : String
  expectedValue : PVal
  actualValue : Option PVal
  error : Option String
  retries : ℕ

/-- An action record (the keys `execute_action` reads). -/
structure ActionRec where
  selector : String
  control : String
  value : PVal

/-- The initial result dict of `execute_action`. -/
def initResult (a : ActionRec) : ExecResult :=
  { success := false, selector := a.selector, control := a.control,
    expectedValue := a.value, actualValue := none, error := none, retries := 0 }

/-- The `control_type` dispatch table of `execute_action`. -/
def dispatchHandler (ct : String) : Option String :=
  if ["text", "email", "tel", "url", "number"].contains ct then some "_fill_text"
  else if ct = "select" then some "_select_option"
  else if ct = "radio" then some "_click_radio"
  else if ct = "checkbox" then some "_click_checkbox"
  else if ct = "file" then some "_upload_file"
  else if ["date", "datetime-local"].contains ct then some "_fill_date"
  else if ct = "textarea" then some "_fill_textarea"
  else if ct = "custom-dropdown" then some "_handle_custom_dropdown"
  else none

/-- Outcome of one awaited handler call: a result dict, or a raised
exception. -/
inductive HandlerOutcome where
  | ok (r : ExecResult)
  | raise (msg : String)

/-- The page/handler environment: arbitrary behaviour of each per-control
handler, keyed by handler name. -/
structure ExecEnv where
  run : String → ExecResult → HandlerOutcome

/-- `execute_action`: dispatch on the lowercased control kind; an unknown
kind produces an error result; any exception from a handler is caught and
recorded on the result — the call itself never raises. -/
def executeAction (a : ActionRec) (env : ExecEnv) : Except String ExecResult :=
  let r0 := initResult a
  match dispatchHandler (pyLower a.control) with
  | some h =>
    match env.run h r0 with
    | .ok r => .ok r
    | .raise msg => .ok { r0 with error := some msg }
  | none => .ok { r0 with error := some ("未知的控件类型: " ++ pyLower a.control) }

/-- `_parse_boolean_value`: booleans pass through, otherwise the lowercased
stripped string must be one of yes/true/1/on/checked. -/
def parseBooleanValue (v : PVal) : Bool :=
  match v with
  | .pbool b => b
  | _ => ["yes", "true", "1", "on", "checked"].contains (pyStrip (pyLower (pyStr v)))

/-- The checkbox element as `_click_checkbox` observes it: whether the
selector resolves, the checked state on first read, and the state that a
click would leave behind (arbitrary — the page scripts decide). -/
structure CheckboxPage where
  found : Bool
  initialChecked : Bool
  afterClickChecked : Bool

/-- What `_click_checkbox` did: the returned result, the element's final
checked state, and whether a click was issued. -/
structure CheckboxOutcome where
  result : ExecResult
  finalChecked : Bool
  clicked : Bool

/-- `_click_checkbox`: parse the intended boolean, click only when the
current state differs, re-read and report success only when the final state
matches the intent. -/
def clickCheckbox (a : ActionRec) (page : CheckboxPage) : CheckboxOutcome :=
  let r0 := initResult a
  let shouldCheck := parseBooleanValue a.value
  if ¬ page.found then
    { result := { r0 with error := some ("找不到元素: " ++ a.selector) },
      finalChecked := page.initialChecked, clicked := false }
  else
    let isChecked := page.initialChecked
    let clicked := (shouldCheck && !isChecked) || (!shouldCheck && isChecked)
    let finalState := if clicked then page.afterClickChecked else isChecked
    if finalState = shouldCheck then
      { result := { r0 with success := true, actualValue := some (.pbool finalState) },
        finalChecked := finalState, clicked := clicked }
    else
      { result := { r0 with error := some "复选框状态不正确" },
        finalChecked := finalState, clicked := clicked }

end ActionExecutor

/-! ## `smart_field_handler.py` — the option-matching ladder -/

namespace SmartFieldHandler

/-- A harvested `<option>`: DOM index, `value` attribute and stripped text
(`text_lower` / `value_lower` are recomputed on demand via `pyLower`). -/
structure ShOption where
  index : ℕ
  value : String
  text : String
deriving DecidableEq

/-- The placeholder texts skipped by `_get_select_options`. -/
def placeholderTexts : List String :=
  ["select", "choose", "please select", "--select--", "select one"]

/-- `_get_select_options` on the raw (value, text) pairs of the DOM options:
skip entries with empty value and text and entries whose lowercased text is
a placeholder. -/
def getSelectOptions (raw : List (String × String)) : List ShOption :=
  raw.enum.filterMap fun q =>
    let value := q.2.1
    let text := pyStrip q.2.2
    if value = "" ∧ text = "" then none
    else if placeholderTexts.contains (pyLower text) then none
    else some ⟨q.1, value, text⟩

/-- The `country_mappings` table of `_match_country`. -/
def countryMappings : List (String × List String) :=
  [("united states",
    ["usa", "us", "united states", "united states of america", "america"]),
   ("usa", ["usa", "us", "united states", "united states of america"]),
   ("us", ["usa", "us", "united states", "united states of america"]),
   ("uk", ["uk", "united kingdom", "great britain", "gb", "britain"]),
   ("china", ["china", "cn", "prc", "people\x27s republic of china"]),
   ("canada", ["canada", "ca", "can"])]

/-- Per-option test of `_match_country`: a variant of the target's entry is
contained in the option's text or value, or (reverse direction) the target
is a variant of some country whose name or variants appear in the text. -/
def countryOptionHit (tl : String) (o : ShOption) : Bool :=
  (match (countryMappings.find? fun p => p.1 = tl).map (·.2) with
   | some variants =>
     variants.any fun v => pyIn v (pyLower o.text) || pyIn v (pyLower o.value)
   | none => false) ||
  countryMappings.any fun p =>
    p.2.contains tl &&
      (pyIn p.1 (pyLower o.text) || p.2.any fun v => pyIn v (pyLower o.text))

/-- `_match_country`: the first option hit, with confidence 0.9. -/
def matchCountry (target : String) (options : List ShOption) :
    Option (ShOption × ℚ) :=
  let tl := pyLower target
  (options.find? (countryOptionHit tl)).map fun o => (o, 9/10)

/-- The `state_mappings` table of `_match_state`. -/
def stateMappings : List (String × String) :=
  [("ca", "california"), ("ny", "new york"), ("tx", "texas"),
   ("fl", "florida"), ("wa", "washington"), ("ma", "massachusetts"),
   ("il", "illinois"), ("pa", "pennsylvania")]

/-- Per-option test of `_match_state`, in source order: exact two-letter
value match (0.95); known abbreviation whose full name appears in the text
(0.9); full name whose abbreviation appears in value or text (0.9). -/
def stateOptionHit (target tl : String) (o : ShOption) : Option ℚ :=
  if target.length = 2 ∧ pyLower o.value = tl then some (19/20)
  else if (match stateMappings.find? fun p => p.1 = tl with
           | some p => pyIn p.2 (pyLower o.text)
           | none => false) then some (9/10)
  else if stateMappings.any (fun p =>
      tl = p.2 && (pyIn p.1 (pyLower o.value) || pyIn p.1 (pyLower o.text))) then
    some (9/10)
  else none

/-- `_match_state`: the first option with a hit, with its confidence. -/
def matchState (target : String) (options : List ShOption) :
    Option (ShOption × ℚ) :=
  let tl := pyLower target
  options.findSome? fun o => (stateOptionHit target tl o).map fun c => (o, c)

/-- Per-option test of `_match_year`: the year string occurs in the text or
value (0.95; the second 0.9 branch of the source is subsumed and kept only
for fidelity). -/
def yearOptionHit (t : String) (o : ShOption) : Option ℚ :=
  if pyIn t o.text || pyIn t o.value then some (19/20)
  else if pyIn t o.text then some (9/10)
  else none

/-- `_match_year`. -/
def matchYear (target : String) (options : List ShOption) :
    Option (ShOption × ℚ) :=
  options.findSome? fun o => (yearOptionHit target o).map fun c => (o, c)

/-- The `degree_mappings` table of `_match_degree`. -/
def degreeMappings : List (String × List String) :=
  [("bachelor\x27s",
    ["bachelor", "bachelors", "bachelor\x27s", "bs", "ba", "b.s.", "b.a."]),
   ("master\x27s",
    ["master", "masters", "master\x27s", "ms", "ma", "m.s.", "m.a.", "mba"]),
   ("phd", ["phd", "ph.d.", "doctor", "doctorate", "doctoral"]),
   ("associate",
    ["associate", "associates", "associate\x27s", "aa", "as", "a.a.", "a.s."])]

/-- Per-option test of `_match_degree`: the target is a variant of an entry
one of whose variants appears in the option text. -/
def degreeOptionHit (tl : String) (o : ShOption) : Bool :=
  degreeMappings.any fun p =>
    p.2.contains tl && p.2.any fun v => pyIn v (pyLower o.text)

/-- `_match_degree`: the first option hit, with confidence 0.9. -/
def matchDegree (target : String) (options : List ShOption) :
    Option (ShOption × ℚ) :=
  let tl := pyLower target
  (options.find? (degreeOptionHit tl)).map fun o => (o, 9/10)

/-- `_get_abbreviation`: first letters (uppercased) of a multi-word text,
else the first three characters of the uppercased word. -/
def getAbbreviation (text : String) : String :=
  let words := (pySplit Char.isWhitespace text).filter (· ≠ "")
  if words.length > 1 then
    String.mk (words.filterMap fun w => w.toList.head?.map Char.toUpper)
  else String.mk ((pyUpper text).toList.take 3)

/-- Strategy 1 of `_find_best_option_match`: exact equality on value or
text, confidence 1.0. -/
def exactStage (target : String) (options : List ShOption) :
    Option (ShOption × ℚ) :=
  (options.find? fun o => o.value == target || o.text == target).map
    fun o => (o, 1)

/-- Strategy 2: case-insensitive equality, confidence 0.95. -/
def caseInsensitiveStage (tl : String) (options : List ShOption) :
    Option (ShOption × ℚ) :=
  (options.find? fun o => pyLower o.value == tl || pyLower o.text == tl).map
    fun o => (o, 19/20)

/-- Strategy 3: the domain matcher selected by the field name/label
(country, state/province, year/graduation, degree/education) — an
`if`/`elif` chain, so at most one matcher runs. -/
def domainStage (target : String) (options : List ShOption) (fn fl : String) :
    Option (ShOption × ℚ) :=
  if pyIn "country" fn || pyIn "country" fl then matchCountry target options
  else if pyIn "state" fn || pyIn "state" fl || pyIn "province" fn then
    matchState target options
  else if pyIn "year" fn || pyIn "graduation" fn then matchYear target options
  else if pyIn "degree" fn || pyIn "education" fn then matchDegree target options
  else none

/-- Strategy 4: substring containment in either direction, text before
value (0.8 / 0.75). -/
def containmentStage (tl : String) (options : List ShOption) :
    Option (ShOption × ℚ) :=
  options.findSome? fun o =>
    if pyIn tl (pyLower o.text) || pyIn (pyLower o.text) tl then some (o, 4/5)
    else if pyIn tl (pyLower o.value) || pyIn (pyLower o.value) tl then
      some (o, 3/4)
    else none

/-- Strategy 5: acronym equality, confidence 0.7. -/
def acronymStage (target : String) (options : List ShOption) :
    Option (ShOption × ℚ) :=
  let ta := getAbbreviation target
  (options.find? fun o => getAbbreviation o.text == ta).map fun o => (o, 7/10)

/-- Strategy 6: best `SequenceMatcher` similarity strictly above 0.6 over
text and value; the winner's confidence is the similarity times 0.8. -/
def similarityStage (tl : String) (options : List ShOption) :
    Option (ShOption × ℚ) :=
  let best := options.foldl
    (fun acc o =>
      let sim := max (ratio tl (pyLower o.text)) (ratio tl (pyLower o.value))
      if sim > acc.1 ∧ sim > 3/5 then (sim, some o) else acc)
    ((0 : ℚ), (none : Option ShOption))
  best.2.map fun o => (o, best.1 * (4/5))

/-- Strategy 7: the first option with non-empty value and text,
confidence 0.3. -/
def defaultStage (options : List ShOption) : Option (ShOption × ℚ) :=
  (options.find? fun o => !(o.value == "") && !(o.text == "")).map
    fun o => (o, 3/10)

/-- `_find_best_option_match`: run the seven strategies in order and return
the first hit together with its confidence. -/
def findBestOptionMatch (target : String) (options : List ShOption)
    (fieldName fieldLabel : String) : Option (ShOption × ℚ) :=
  if target = "" then none
  else
    let tl := pyStrip (pyLower target)
    let fn := pyLower fieldName
    let fl := pyLower fieldLabel
    match exactStage target options with
    | some r => some r
    | none =>
      match caseInsensitiveStage tl options with
      | some r => some r
      | none =>
        match domainStage target options fn fl with
        | some r => some r
        | none =>
          match containmentStage tl options with
          | some r => some r
          | none =>
            match acronymStage target options with
            | some r => some r
            | none =>
              match similarityStage tl options with
              | some r => some r
              | none => defaultStage options

/-- The ladder as the claim words it: the seven stages tried left to right,
first hit wins. -/
def ladderFirstHit (target : String) (options : List ShOption)
    (fieldName fieldLabel : String) : Option (ShOption × ℚ) :=
  if target = "" then none
  else
    (exactStage target options) <|>
    (caseInsensitiveStage (pyStrip (pyLower target)) options) <|>
    (domainStage target options (pyLower fieldName) (pyLower fieldLabel)) <|>
    (containmentStage (pyStrip (pyLower target)) options) <|>
    (acronymStage target options) <|>
    (similarityStage (pyStrip (pyLower target)) options) <|>
    (defaultStage options)

end SmartFieldHandler

/-! ## `gpt_service.py` — schema validation and repair -/

namespace GPTService

/-- The closed page-type set. -/
def validPageTypes : List String :=
  ["job_detail", "job_detail_with_form", "form_page", "login_page",
   "external_redirect", "unknown"]

/-- The closed action-type set. -/
def validActionTypes : List String :=
  ["fill_form", "click_cta", "login_required", "wait_for_human", "no_action"]

/-- The closed element-type set of `_fix_cta_candidate`. -/
def validElementTypes : List String :=
  ["button", "a", "input", "submit", "div", "span"]

/-- The default `recommended_action` dict used by the repair pass. -/
def defaultRecommendedAction (reasoning : String) : List (String × PVal) :=
  [("action_type", .pstr "wait_for_human"), ("confidence", .pfloat 0),
   ("reasoning", .pstr reasoning), ("target_element", .pnone),
   ("form_selector", .pnone), ("priority", .pint 1)]

/-- `_get_default_error_response`: the typed default analysis. -/
def getDefaultErrorResponse (errorMessage : String) : List (String × PVal) :=
  [("page_type", .pstr "unknown"), ("confidence", .pfloat 0),
   ("form_count", .pint 0), ("has_apply_button", .pbool false),
   ("reasoning", .pstr ("JSON parsing error: " ++ errorMessage)),
   ("cta_candidates", .plist []),
   ("recommended_action",
    .pdict (defaultRecommendedAction
      ("Failed to parse GPT response: " ++ errorMessage)))]

/-- One `if key not in response: response[key] = default` statement. -/
def condSet (d : List (String × PVal)) (k : String) (v : PVal) :
    List (String × PVal) :=
  if (dGet d k).isNone then setKey d k v else d

/-- The seven required keys with their documented defaults, in the order
the source tests them. -/
def missingDefaults : List (String × PVal) :=
  [("page_type", .pstr "unknown"), ("confidence", .pfloat 0),
   ("form_count", .pint 0), ("has_apply_button", .pbool false),
   ("reasoning", .pstr "No reasoning provided"),
   ("cta_candidates", .plist []),
   ("recommended_action",
    .pdict (defaultRecommendedAction "No action recommendation provided"))]

/-- The missing-field pass of `_fix_page_analysis_errors`: insert the
documented default for every absent required field. -/
def fixMissing (r : List (String × PVal)) : List (String × PVal) :=
  missingDefaults.foldl (fun acc p => condSet acc p.1 p.2) r

/-- The page-type pass: a non-string or out-of-enum value becomes
`unknown` (the key is always present after `fixMissing`). -/
def fixPageType (r : List (String × PVal)) : List (String × PVal) :=
  match dGet r "page_type" with
  | some (.pstr s) =>
    if validPageTypes.contains s then r else setKey r "page_type" (.pstr "unknown")
  | _ => setKey r "page_type" (.pstr "unknown")

/-- The top-level confidence pass: anything that is not a number in `[0,1]`
is reset to `0.0` (no rescaling happens here). -/
def fixConfidence (r : List (String × PVal)) : List (String × PVal) :=
  match (dGet r "confidence").bind pyNum? with
  | some q => if 0 ≤ q ∧ q ≤ 1 then r else setKey r "confidence" (.pfloat 0)
  | none => setKey r "confidence" (.pfloat 0)

/-- The form-count pass: anything that is not a non-negative int becomes 0. -/
def fixFormCount (r : List (String × PVal)) : List (String × PVal) :=
  match (dGet r "form_count").bind pyIsInt? with
  | some n => if n < 0 then setKey r "form_count" (.pint 0) else r
  | none => setKey r "form_count" (.pint 0)

/-- `_fix_cta_candidate`: rebuild the candidate dict with converted fields
(a failing `float()`/`int()` conversion drops the candidate, the Python
`except`), then repair confidence (divide by 10 when in `[1,10]`, else 0),
element type (default `button`) and priority score (default 1). -/
def fixCtaCandidate (cta : List (String × PVal)) :
    Option (List (String × PVal)) :=
  let text0 := pyStrip (pyStr ((dGet cta "text").getD (.pstr "")))
  let text := if text0 = "" then "Unknown Button" else text0
  let sel0 := pyStrip (pyStr ((dGet cta "selector").getD (.pstr "")))
  let selector := if sel0 = "" then ".unknown" else sel0
  match pyFloat? ((dGet cta "confidence").getD (.pfloat 0)) with
  | none => none
  | some conf0 =>
    match pyInt? ((dGet cta "priority_score").getD (.pint 1)) with
    | none => none
    | some prio0 =>
      let etype0 := pyStr ((dGet cta "element_type").getD (.pstr "button"))
      let attrs := (dGet cta "attributes").getD (.pdict [])
      let conf :=
        if 0 ≤ conf0 ∧ conf0 ≤ 1 then conf0
        else if 1 ≤ conf0 ∧ conf0 ≤ 10 then conf0 / 10
        else 0
      let etype := if validElementTypes.contains etype0 then etype0 else "button"
      let prio := if 1 ≤ prio0 ∧ prio0 ≤ 10 then prio0 else 1
      some [("text", .pstr text), ("selector", .pstr selector),
        ("confidence", .pfloat conf), ("element_type", .pstr etype),
        ("attributes", attrs), ("priority_score", .pint prio)]

/-- The cta-candidates pass: a non-list becomes `[]`; dict entries are
repaired by `fixCtaCandidate` (unfixable and non-dict ones are dropped) and
the result is truncated to 10. -/
def fixCtaList (r : List (String × PVal)) : List (String × PVal) :=
  match dGet r "cta_candidates" with
  | some (.plist items) =>
    let fixedItems := items.filterMap fun it =>
      match it with
      | .pdict d => (fixCtaCandidate d).map PVal.pdict
      | _ => none
    setKey r "cta_candidates" (.plist (fixedItems.take 10))
  | _ => setKey r "cta_candidates" (.plist [])

/-- `_fix_recommended_action` on the action dict.  A failing
`float()`/`int()` conversion raises out of the repair (there is no `try`
around it), modelled by `Except.error`. -/
def fixRecommendedActionDict (action : List (String × PVal)) :
    Except Unit (List (String × PVal)) :=
  let atype0 := pyStr ((dGet action "action_type").getD (.pstr "wait_for_human"))
  match pyFloat? ((dGet action "confidence").getD (.pfloat 0)) with
  | none => .error ()
  | some conf0 =>
    match pyInt? ((dGet action "priority").getD (.pint 1)) with
    | none => .error ()
    | some prio0 =>
      let reasoning0 := pyStrip (pyStr ((dGet action "reasoning").getD (.pstr "")))
      let reasoning := if reasoning0 = "" then "No reasoning provided" else reasoning0
      let atype := if validActionTypes.contains atype0 then atype0 else "wait_for_human"
      let conf := if 0 ≤ conf0 ∧ conf0 ≤ 1 then conf0 else 0
      let prio := if 1 ≤ prio0 ∧ prio0 ≤ 10 then prio0 else 1
      let target := match (dGet action "target_element").getD .pnone with
        | .pnone => PVal.pnone
        | v => let s := pyStrip (pyStr v); if s = "" then .pnone else .pstr s
      let form := match (dGet action "form_selector").getD .pnone with
        | .pnone => PVal.pnone
        | v => let s := pyStrip (pyStr v); if s = "" then .pnone else .pstr s
      .ok [("action_type", .pstr atype), ("confidence", .pfloat conf),
        ("reasoning", .pstr reasoning), ("target_element", target),
        ("form_selector", form), ("priority", .pint prio)]

/-- The recommended-action pass: a non-dict becomes the default action dict,
a dict is repaired (conversion failures propagate). -/
def fixActionPass (r : List (String × PVal)) :
    Except Unit (List (String × PVal)) :=
  match dGet r "recommended_action" with
  | some (.pdict d) =>
    (fixRecommendedActionDict d).map fun f =>
      setKey r "recommended_action" (.pdict f)
  | _ => .ok (setKey r "recommended_action"
      (.pdict (defaultRecommendedAction "Invalid action recommendation")))

/-- `_fix_page_analysis_errors`: the passes in source order. -/
def fixPageAnalysisErrors (r : List (String × PVal)) :
    Except Unit (List (String × PVal)) :=
  fixActionPass (fixCtaList (fixFormCount (fixConfidence (fixPageType (fixMissing r)))))

/-- Pydantic `float`/`int` fields reject `bool`; numeric coercion between
`int` and `float` is accepted. -/
def pyNumStrict? : PVal → Option ℚ
  | .pint n => some (n : ℚ)
  | .pfloat q => some q
  | _ => none

/-- Pydantic `int` field. -/
def pyIntStrict? : PVal → Option ℤ
  | .pint n => some n
  | _ => none

/-- `CTACandidateSchema` as a predicate (field types, ranges, enum pattern,
non-blank text/selector, forbidden selector characters). -/
def ctaCandidateValid (d : List (String × PVal)) : Bool :=
  (match dGet d "text" with
   | some (.pstr s) => decide (1 ≤ s.length ∧ s.length ≤ 200) && !(pyStrip s == "")
   | _ => false) &&
  (match dGet d "selector" with
   | some (.pstr s) =>
     decide (1 ≤ s.length ∧ s.length ≤ 500) && !(pyStrip s == "") &&
       !(s.toList.any fun c => ("\x7b\x7d;:()".toList).contains c)
   | _ => false) &&
  (match (dGet d "confidence").bind pyNumStrict? with
   | some q => decide (0 ≤ q ∧ q ≤ 1)
   | none => false) &&
  (match dGet d "element_type" with
   | some (.pstr s) => validElementTypes.contains s
   | _ => false) &&
  (match dGet d "attributes" with
   | some (.pdict _) => true
   | none => true
   | _ => false) &&
  (match (dGet d "priority_score").bind pyIntStrict? with
   | some n => decide (1 ≤ n ∧ n ≤ 10)
   | none => false)

/-- `RecommendedActionSchema` as a predicate, including the
`click_cta ⇒ target_element` consistency check. -/
def recommendedActionValid (d : List (String × PVal)) : Bool :=
  (match dGet d "action_type" with
   | some (.pstr s) => validActionTypes.contains s
   | _ => false) &&
  (match (dGet d "confidence").bind pyNumStrict? with
   | some q => decide (0 ≤ q ∧ q ≤ 1)
   | none => false) &&
  (match dGet d "reasoning" with
   | some (.pstr s) => decide (1 ≤ s.length ∧ s.length ≤ 1000) && !(pyStrip s == "")
   | _ => false) &&
  (match dGet d "target_element" with
   | some (.pstr s) => decide (s.length ≤ 500)
   | some .pnone => true
   | none => true
   | _ => false) &&
  (match dGet d "form_selector" with
   | some (.pstr s) => decide (s.length ≤ 500)
   | some .pnone => true
   | none => true
   | _ => false) &&
  (match (dGet d "priority").bind pyIntStrict? with
   | some n => decide (1 ≤ n ∧ n ≤ 10)
   | none => false) &&
  (match dGet d "action_type", dGet d "target_element" with
   | some (.pstr "click_cta"), some (.pstr s) => !(s == "")
   | some (.pstr "click_cta"), _ => false
   | _, _ => true)

/-- The `model_validator` consistency rules of `PageAnalysisSchema`. -/
def pageConsistencyValid (d : List (String × PVal)) : Bool :=
  let pt := match dGet d "page_type" with | some (.pstr s) => s | _ => ""
  let fc := match (dGet d "form_count").bind pyIsInt? with | some n => n | none => 0
  let hab := match dGet d "has_apply_button" with | some (.pbool b) => b | _ => false
  let ctas := match dGet d "cta_candidates" with | some (.plist l) => l | _ => []
  let atype := match dGet d "recommended_action" with
    | some (.pdict a) =>
      match dGet a "action_type" with | some (.pstr s) => s | _ => ""
    | _ => ""
  !(pt == "job_detail_with_form" && fc == 0) &&
  !(pt == "form_page" && fc == 0) &&
  !(hab && ctas.isEmpty) &&
  (if fc > 0 && (pt == "job_detail_with_form" || pt == "form_page") then
    atype == "fill_form" || atype == "wait_for_human"
   else true) &&
  (if fc == 0 && !ctas.isEmpty && pt == "job_detail" then
    atype == "click_cta" || atype == "wait_for_human"
   else true)

/-- `PageAnalysisSchema` as a predicate over the raw response dict. -/
def pageAnalysisValid (d : List (String × PVal)) : Bool :=
  (match dGet d "page_type" with
   | some (.pstr s) => validPageTypes.contains s
   | _ => false) &&
  (match (dGet d "confidence").bind pyNumStrict? with
   | some q => decide (0 ≤ q ∧ q ≤ 1)
   | none => false) &&
  (match (dGet d "form_count").bind pyIntStrict? with
   | some n => decide (0 ≤ n)
   | none => false) &&
  (match dGet d "has_apply_button" with
   | some (.pbool _) => true
   | _ => false) &&
  (match dGet d "reasoning" with
   | some (.pstr s) => decide (1 ≤ s.length ∧ s.length ≤ 2000) && !(pyStrip s == "")
   | _ => false) &&
  (match dGet d "cta_candidates" with
   | some (.plist items) =>
     decide (items.length ≤ 10) &&
       items.all fun it =>
         match it with
         | .pdict c => ctaCandidateValid c
         | _ => false
   | none => true
   | _ => false) &&
  (match dGet d "recommended_action" with
   | some (.pdict a) => recommendedActionValid a
   | _ => false) &&
  pageConsistencyValid d

/-- `_validate_and_fix_page_analysis`: validate, repair on failure,
re-validate, and fall back to the typed default analysis; a conversion
error inside the repair propagates (it is outside both `try` blocks). -/
def validateAndFixPageAnalysis (raw : List (String × PVal)) :
    Except Unit (List (String × PVal)) :=
  if pageAnalysisValid raw then .ok raw
  else
    match fixPageAnalysisErrors raw with
    | .error e => .error e
    | .ok fixedR =>
      if pageAnalysisValid fixedR then .ok fixedR
      else .ok (getDefaultErrorResponse "Validation error")

end GPTService

/-! ## `page_types.py` / `page_analyzer.py` — CTA ranking -/

namespace PageAnalyzer

/-- `CTACandidate` of `page_types.py`. -/
structure CTACandidate where
  text : String
  selector : String
  confidence : ℚ
  elementType : String
  priorityScore : ℤ
deriving DecidableEq

/-- `CTACandidate.__lt__`: higher confidence sorts first; equal confidences
compare by higher priority score. -/
def ctaLt (a b : CTACandidate) : Prop :=
  (a.confidence ≠ b.confidence ∧ a.confidence > b.confidence) ∨
  (a.confidence = b.confidence ∧ a.priorityScore > b.priorityScore)

instance : DecidableRel ctaLt := fun a b => by
  unfold ctaLt; infer_instance

/-- The non-strict order that a list sorted by `__lt__` satisfies between
consecutive elements: `¬ (b < a)`. -/
def sortRel (a b : CTACandidate) : Prop := ¬ ctaLt b a

instance : DecidableRel sortRel := fun a b => by
  unfold sortRel; infer_instance

/-- Python's `sorted(cta_candidates)`: a comparison sort over `__lt__`,
modelled by insertion sort over `sortRel` (the claims below concern only
the ordering of the output, which any implementation of `sorted`
guarantees). -/
def pySorted (l : List CTACandidate) : List CTACandidate :=
  List.insertionSort sortRel l

/-- `PageAnalysisResult` of `page_types.py` (`raw_content` omitted). -/
structure PageAnalysisResult where
  pageType : String
  confidence : ℚ
  title : String
  url : String
  formCount : ℤ
  hasApplyButton : Bool
  ctaCandidates : List CTACandidate
  reasoning : String

/-- The outcome of `gpt_service.analyze_page_content` plus candidate
parsing as `analyze_page` consumes it: the parsed fields, or the exception
path (any raise inside the `try`, including an illegal `PageType` value). -/
inductive AnalyzeOutcome where
  | ok (pageType : String) (confidence : ℚ) (formCount : ℤ)
      (hasApplyButton : Bool) (ctas : List CTACandidate) (reasoning : String)
  | exn (msg : String)

/-- `analyze_page`: build the result with the candidates sorted by
`__lt__`; the exception path returns the default result with no
candidates. -/
def analyzePage (url title : String) (outcome : AnalyzeOutcome) :
    PageAnalysisResult :=
  match outcome with
  | .ok pt conf fc hab ctas reasoning =>
    { pageType := pt, confidence := conf, title := title, url := url,
      formCount := fc, hasApplyButton := hab,
      ctaCandidates := pySorted ctas, reasoning := reasoning }
  | .exn msg =>
    { pageType := "unknown", confidence := 0, title := title, url := url,
      formCount := 0, hasApplyButton := false, ctaCandidates := [],
      reasoning := "Analysis failed: " ++ msg }

/-- `should_proceed_with_cta`: the decision inspects the candidate at
index 0. -/
def shouldProceedWithCta (res : PageAnalysisResult) (minConfidence : ℚ) :
    Bool :=
  if !(res.pageType == "job_detail") then false
  else
    match res.ctaCandidates with
    | [] => false
    | best :: _ => decide (minConfidence ≤ best.confidence)

end PageAnalyzer

/-! ## `field_learning_system.py` — Learning Store confidence -/

namespace FieldLearningSystem

/-- From `_update_confidence`: value consistency of the stored examples,
`1 - (unique_values - 1)/n` when `n > 1`, else `0.5`.  `unique_values` is
`len(set(values))`, modelled by `List.dedup`. -/
def consistency (examples : List String) : ℚ :=
  let n := examples.length
  if n > 1 then 1 - ((examples.dedup.length : ℚ) - 1) / (n : ℚ) else 1/2

/-- From `_update_confidence`: the pre-clamp confidence
`0.5 + example_count * 0.1 + consistency * 0.3`. -/
def rawConfidence (examples : List String) : ℚ :=
  1/2 + (examples.length : ℚ) * (1/10) + consistency examples * (3/10)

/-- Python's `round(x, 2)`.  Ties (which would distinguish rounding modes)
cannot occur at any reachable confidence value, so round-half-up is used. -/
def round2 (q : ℚ) : ℚ := ((⌊q * 100 + 1/2⌋ : ℤ) : ℚ) / 100

/-- From `_update_confidence`: the stored confidence
`round(min(0.95, 0.5 + n*0.1 + consistency*0.3), 2)`. -/
def updateConfidence (examples : List String) : ℚ :=
  round2 (min (19/20) (rawConfidence examples))

/-- From `learn_field_mapping`: recording appends the example value. -/
def recordExample (examples : List String) (v : String) : List String :=
  examples ++ [v]

end FieldLearningSystem

/-! # Part 2 — Theorems -/

/-- `List.dedup` of a nonempty constant list is the singleton. -/
theorem dedup_replicate_succ (n : ℕ) (w : String) :
    (List.replicate (n + 1) w).dedup = [w] := by
  induction n with
  | zero => simp [List.dedup]
  | succ m ih =>
    have : List.replicate (m + 2) w = w :: List.replicate (m + 1) w := rfl
    rw [this, List.dedup_cons_of_mem, ih]
    exact List.mem_replicate.mpr ⟨Nat.succ_ne_zero m, rfl⟩

namespace FieldLearningSystem

/-- Rounding to two decimals is the identity at every reachable confidence. -/
theorem round2_key (n u : ℕ) (h1 : 1 ≤ u) (h2 : u ≤ n) :
    round2 (min (19/20)
      (1/2 + (n : ℚ) * (1/10) +
        (if n > 1 then 1 - ((u : ℚ) - 1) / (n : ℚ) else 1/2) * (3/10))) =
    min (19/20)
      (1/2 + (n : ℚ) * (1/10) +
        (if n > 1 then 1 - ((u : ℚ) - 1) / (n : ℚ) else 1/2) * (3/10)) := by
  rcases le_or_lt n 4 with hn | hn
  · interval_cases n <;> interval_cases u <;> norm_num [round2, min_def]
  · -- n ≥ 5: the inner value is at least 1, so the min is 19/20.
    have hn5 : (5 : ℚ) ≤ (n : ℚ) := by exact_mod_cast hn
    have hnpos : (0 : ℚ) < (n : ℚ) := by positivity
    have hgt : (1 : ℕ) < n := by omega
    have hcons : (0 : ℚ) ≤ 1 - ((u : ℚ) - 1) / (n : ℚ) := by
      have hun : ((u : ℚ) - 1) / (n : ℚ) ≤ 1 := by
        rw [div_le_one hnpos]
        have : (u : ℚ) ≤ (n : ℚ) := by exact_mod_cast h2
        linarith
      linarith
    have hbig : (19/20 : ℚ) ≤
        1/2 + (n : ℚ) * (1/10) +
          (if n > 1 then 1 - ((u : ℚ) - 1) / (n : ℚ) else 1/2) * (3/10) := by
      rw [if_pos hgt]
      nlinarith
    rw [min_eq_left hbig]
    norm_num [round2]

end FieldLearningSystem

/-- C2: after every record, the stored Learning Store confidence equals
`min(0.95, 0.5 + 0.1·n + 0.3·consistency)` with `consistency =
1 − (unique_values − 1)/n` for `n > 1` and `0.5` for `n = 1`; over a
sequence of records of one identical value the confidence is monotonically
non-decreasing and never exceeds 0.95. -/
theorem Claim2_learning_confidence (prior : List String) (v : String) :
    FieldLearningSystem.updateConfidence
        (FieldLearningSystem.recordExample prior v) =
      min (19/20)
        (FieldLearningSystem.rawConfidence
          (FieldLearningSystem.recordExample prior v)) ∧
    (∀ (w : String) (n : ℕ),
      FieldLearningSystem.updateConfidence (List.replicate (n + 1) w) ≤
        FieldLearningSystem.updateConfidence (List.replicate (n + 2) w)) ∧
    FieldLearningSystem.updateConfidence
        (FieldLearningSystem.recordExample prior v) ≤ 19/20 := by
  open FieldLearningSystem in
  have key : ∀ (examples : List String), examples ≠ [] →
      updateConfidence examples = min (19/20) (rawConfidence examples) := by
    intro examples hne
    have hu1 : 1 ≤ examples.dedup.length := by
      have : examples.dedup ≠ [] := by
        simpa [List.dedup_eq_nil] using hne
      exact List.length_pos.mpr this
    have hun : examples.dedup.length ≤ examples.length :=
      examples.dedup_sublist.length_le
    simpa [updateConfidence, rawConfidence, consistency] using
      round2_key examples.length examples.dedup.length hu1 hun
  have hne : FieldLearningSystem.recordExample prior v ≠ [] := by
    simp [FieldLearningSystem.recordExample]
  have hrepl : ∀ (w : String) (k : ℕ), 2 ≤ k →
      updateConfidence (List.replicate k w) = 19/20 := by
    intro w k hk
    obtain ⟨m, rfl⟩ : ∃ m, k = m + 2 := ⟨k - 2, by omega⟩
    have hded : (List.replicate (m + 2) w).dedup = [w] :=
      dedup_replicate_succ (m + 1) w
    have hlen : (List.replicate (m + 2) w).length = m + 2 := by simp
    have hbig : (19/20 : ℚ) ≤ rawConfidence (List.replicate (m + 2) w) := by
      simp only [rawConfidence, consistency, hded, hlen, List.length_singleton]
      rw [if_pos (by omega)]
      push_cast
      have h0 : ((1 : ℚ) - 1) / ((m : ℚ) + 2) = 0 := by simp
      rw [h0]
      nlinarith [Nat.cast_nonneg (α := ℚ) m]
    rw [updateConfidence, min_eq_left hbig]
    norm_num [round2]
  refine ⟨key _ hne, ?_, ?_⟩
  · intro w n
    cases n with
    | zero =>
      have h1 : updateConfidence (List.replicate 1 w) = 3/4 := by
        rw [key (List.replicate 1 w) (by simp)]
        norm_num [rawConfidence, consistency, min_def, List.replicate_one,
          List.dedup]
      rw [h1, hrepl w 2 (by omega)]
      norm_num
    | succ m =>
      rw [hrepl w (m + 2) (by omega), hrepl w (m + 3) (by omega)]
  · rw [key _ hne]
    exact min_le_left _ _

/-- C9: profile normalization on read — a phone value with exactly 10
digits is formatted `(NXX) NXX-XXXX`, so `3105551234` becomes
`(310) 555-1234`; salary `"120000"` becomes `"120,000"`; and the
boolean-like value `"yes"` normalizes to `"Yes"`. -/
theorem Claim9_profile_normalization :
    (∀ phone : String,
      (EnhancedDataManager.digitsOf phone).length = 10 →
      EnhancedDataManager.formatPhone phone =
        "(" ++ String.mk ((EnhancedDataManager.digitsOf phone).take 3) ++
          ") " ++ String.mk (((EnhancedDataManager.digitsOf phone).drop 3).take 3) ++
          "-" ++ String.mk ((EnhancedDataManager.digitsOf phone).drop 6)) ∧
    EnhancedDataManager.formatPhone "3105551234" = "(310) 555-1234" ∧
    EnhancedDataManager.formatSalary "120000" = "120,000" ∧
    EnhancedDataManager.normalizeValue "yes"
      EnhancedDataManager.workAuthorizationValueMap = "Yes" := by
  refine ⟨?_, by decide, by decide, by decide⟩
  intro phone h10
  have hne : phone ≠ "" := by
    intro h
    subst h
    simp [EnhancedDataManager.digitsOf] at h10
  unfold EnhancedDataManager.formatPhone
  rw [if_neg hne, if_pos h10]

/-- Witness for C9 at the concrete phone `3105551234`. -/
theorem Claim9_witness :
    (EnhancedDataManager.digitsOf "3105551234").length = 10 ∧
    EnhancedDataManager.formatPhone "3105551234" =
      "(" ++ String.mk ((EnhancedDataManager.digitsOf "3105551234").take 3) ++
        ") " ++ String.mk (((EnhancedDataManager.digitsOf "3105551234").drop 3).take 3) ++
        "-" ++ String.mk ((EnhancedDataManager.digitsOf "3105551234").drop 6) :=
  ⟨by decide, Claim9_profile_normalization.1 "3105551234" (by decide)⟩

/-- C7: a checkbox action parses its intended boolean as true exactly when
the value is boolean `True` or its lowercased stripped string is one of
yes/true/1/on/checked; the executor clicks only when the current checked
state differs from the intent; and a success result implies the final
checked state equals the intent. -/
theorem Claim7_checkbox_semantics (a : ActionExecutor.ActionRec)
    (page : ActionExecutor.CheckboxPage) :
    (ActionExecutor.parseBooleanValue a.value = true ↔
      (a.value = .pbool true ∨
        pyStrip (pyLower (pyStr a.value)) ∈
          ["yes", "true", "1", "on", "checked"])) ∧
    ((ActionExecutor.clickCheckbox a page).clicked =
      (page.found &&
        (ActionExecutor.parseBooleanValue a.value != page.initialChecked))) ∧
    ((ActionExecutor.clickCheckbox a page).result.success = true →
      (ActionExecutor.clickCheckbox a page).finalChecked =
        ActionExecutor.parseBooleanValue a.value) := by
  refine ⟨?_, ?_, ?_⟩
  · have aux : ∀ v : PVal,
        ActionExecutor.parseBooleanValue v = true ↔
          (v = .pbool true ∨
            pyStrip (pyLower (pyStr v)) ∈ ["yes", "true", "1", "on", "checked"]) := by
      intro v
      cases v with
      | pbool b =>
        cases b with
        | false =>
          refine ⟨fun h => absurd h (by decide), ?_⟩
          rintro (h | h)
          · exact absurd (PVal.pbool.inj h) (by decide)
          · exact absurd h (by decide)
        | true => exact ⟨fun _ => Or.inl rfl, fun _ => by decide⟩
      | pstr s =>
        simp [ActionExecutor.parseBooleanValue, List.contains, List.elem_iff]
      | pint n =>
        simp [ActionExecutor.parseBooleanValue, List.contains, List.elem_iff]
      | pfloat q =>
        simp [ActionExecutor.parseBooleanValue, List.contains, List.elem_iff]
      | pnone =>
        simp [ActionExecutor.parseBooleanValue, List.contains, List.elem_iff]
      | plist l =>
        simp [ActionExecutor.parseBooleanValue, List.contains, List.elem_iff]
      | pdict d =>
        simp [ActionExecutor.parseBooleanValue, List.contains, List.elem_iff]
    exact aux a.value
  · cases hf : page.found <;>
      cases hs : ActionExecutor.parseBooleanValue a.value <;>
      cases hi : page.initialChecked <;>
      cases hac : page.afterClickChecked <;>
      simp [ActionExecutor.clickCheckbox, hf, hs, hi, hac]
  · intro hsucc
    by_cases hf : page.found
    · by_cases heq : ((if (ActionExecutor.parseBooleanValue a.value &&
          !page.initialChecked) ||
          (!(ActionExecutor.parseBooleanValue a.value) && page.initialChecked) then
            page.afterClickChecked else page.initialChecked) =
          ActionExecutor.parseBooleanValue a.value)
      · simp only [ActionExecutor.clickCheckbox, hf, not_true_eq_false,
          if_false, if_pos heq]
        exact heq
      · exfalso
        simp only [ActionExecutor.clickCheckbox, hf, not_true_eq_false,
          if_false, if_neg heq] at hsucc
        simp [ActionExecutor.initResult] at hsucc
    · exfalso
      simp only [ActionExecutor.clickCheckbox, hf] at hsucc
      simp [ActionExecutor.initResult] at hsucc

/-- Witness for C7: intent `"yes"` on an unchecked checkbox whose click
checks it — the executor reports success and the final state is checked. -/
theorem Claim7_witness :
    (ActionExecutor.clickCheckbox
        ⟨"#cb", "checkbox", .pstr "yes"⟩ ⟨true, false, true⟩).result.success = true ∧
    (ActionExecutor.clickCheckbox
        ⟨"#cb", "checkbox", .pstr "yes"⟩ ⟨true, false, true⟩).finalChecked =
      ActionExecutor.parseBooleanValue (.pstr "yes") :=
  ⟨by decide,
   (Claim7_checkbox_semantics ⟨"#cb", "checkbox", .pstr "yes"⟩
      ⟨true, false, true⟩).2.2 (by decide)⟩

/-- C8: `execute_action` always returns a typed execution-result record and
never raises across its boundary — an unknown control kind yields an
unsuccessful result with an error message — and `generate_snapshot` always
returns a group list, the empty list on any internal failure. -/
theorem Claim8_boundary_results (a : ActionExecutor.ActionRec)
    (env : ActionExecutor.ExecEnv) (senv : DOMSnapshot.SnapshotEnv) :
    (∃ r, ActionExecutor.executeAction a env = .ok r) ∧
    (ActionExecutor.dispatchHandler (pyLower a.control) = none →
      ∃ r, ActionExecutor.executeAction a env = .ok r ∧
        r.success = false ∧ r.error.isSome) ∧
    (∃ gs, DOMSnapshot.generateSnapshot senv = .ok gs) ∧
    (∀ e, senv.evaluate = .error e →
      DOMSnapshot.generateSnapshot senv = .ok []) := by
  refine ⟨?_, ?_, ?_, ?_⟩
  · cases hd : ActionExecutor.dispatchHandler (pyLower a.control) with
    | none =>
      exact ⟨{ ActionExecutor.initResult a with
          error := some ("未知的控件类型: " ++ pyLower a.control) },
        by simp only [ActionExecutor.executeAction, hd]⟩
    | some h =>
      cases hr : env.run h (ActionExecutor.initResult a) with
      | ok r => exact ⟨r, by simp only [ActionExecutor.executeAction, hd, hr]⟩
      | raise msg =>
        exact ⟨{ ActionExecutor.initResult a with error := some msg },
          by simp only [ActionExecutor.executeAction, hd, hr]⟩
  · intro hd
    refine ⟨{ ActionExecutor.initResult a with
        error := some ("未知的控件类型: " ++ pyLower a.control) }, ?_, rfl, rfl⟩
    simp only [ActionExecutor.executeAction, hd]
  · cases he : senv.evaluate with
    | ok elems =>
      exact ⟨DOMSnapshot.groupElementsByLogic elems 50,
        by simp only [DOMSnapshot.generateSnapshot, he]⟩
    | error e => exact ⟨[], by simp only [DOMSnapshot.generateSnapshot, he]⟩
  · intro e he
    simp only [DOMSnapshot.generateSnapshot, he]

/-- Witness for C8: an action with the unknown control kind `blob` yields
an unsuccessful result with an error, never an exception. -/
theorem Claim8_witness :
    ∃ r, ActionExecutor.executeAction ⟨"#x", "blob", .pstr "v"⟩
        ⟨fun _ r => .ok r⟩ = .ok r ∧ r.success = false ∧ r.error.isSome :=
  (Claim8_boundary_results ⟨"#x", "blob", .pstr "v"⟩ ⟨fun _ r => .ok r⟩
    ⟨.ok []⟩).2.1 (by decide)

/-- Every chunk produced by `chunksOfAux` has at most `n + 1` elements. -/
theorem chunksOfAux_length_le :
    ∀ (bound n : ℕ) (l : List α), ∀ c ∈ chunksOfAux bound (n + 1) l,
      c.length ≤ n + 1 := by
  intro bound
  induction bound with
  | zero =>
    intro n l c hc
    cases l <;> simp [chunksOfAux] at hc
  | succ b ih =>
    intro n l c hc
    cases l with
    | nil => simp [chunksOfAux] at hc
    | cons x xs =>
      simp only [chunksOfAux, List.mem_cons] at hc
      rcases hc with rfl | hc
      · simp only [List.length_cons, List.length_take]
        omega
      · exact ih n (xs.drop n) c hc

/-- The chunks of `chunksOfAux` concatenate back to the list when the bound
is at least the list length. -/
theorem chunksOfAux_flatten :
    ∀ (bound n : ℕ) (l : List α), l.length ≤ bound →
      (chunksOfAux bound (n + 1) l).flatten = l := by
  intro bound
  induction bound with
  | zero =>
    intro n l hl
    have : l = [] := List.length_eq_zero.mp (Nat.le_zero.mp hl)
    subst this
    simp [chunksOfAux]
  | succ b ih =>
    intro n l hl
    cases l with
    | nil => simp [chunksOfAux]
    | cons x xs =>
      simp only [chunksOfAux, List.flatten_cons]
      simp only [List.length_cons] at hl
      rw [ih n (xs.drop n) (by simp only [List.length_drop]; omega)]
      simp [List.take_append_drop]

/-- Every chunk (the last aside) has exactly `n + 1` elements. -/
theorem chunksOfAux_dropLast_length :
    ∀ (bound n : ℕ) (l : List α), l.length ≤ bound →
      ∀ c ∈ (chunksOfAux bound (n + 1) l).dropLast, c.length = n + 1 := by
  intro bound
  induction bound with
  | zero =>
    intro n l hl c hc
    have : l = [] := List.length_eq_zero.mp (Nat.le_zero.mp hl)
    subst this
    simp [chunksOfAux] at hc
  | succ b ih =>
    intro n l hl c hc
    cases l with
    | nil => simp [chunksOfAux] at hc
    | cons x xs =>
      simp only [chunksOfAux] at hc
      by_cases hrest : chunksOfAux b (n + 1) (xs.drop n) = []
      · rw [hrest] at hc
        simp at hc
      · rw [List.dropLast_cons_of_ne_nil hrest, List.mem_cons] at hc
        rcases hc with rfl | hc
        · -- the successor chunk list is nonempty, so `xs.drop n ≠ []`
          have hxs : xs.drop n ≠ [] := by
            intro hnil
            rw [hnil] at hrest
            simp [chunksOfAux] at hrest
          have : n < xs.length := by
            by_contra hlt
            push_neg at hlt
            exact hxs (List.drop_eq_nil_of_le hlt)
          simp only [List.length_cons, List.length_take]
          omega
        · simp only [List.length_cons] at hl
          exact ih n (xs.drop n) (by simp only [List.length_drop]; omega) c hc

/-- Every chunk is a sublist of the original list. -/
theorem chunksOfAux_sublist :
    ∀ (bound n : ℕ) (l : List α), ∀ c ∈ chunksOfAux bound (n + 1) l,
      c.Sublist l := by
  intro bound
  induction bound with
  | zero =>
    intro n l c hc
    cases l <;> simp [chunksOfAux] at hc
  | succ b ih =>
    intro n l c hc
    cases l with
    | nil => simp [chunksOfAux] at hc
    | cons x xs =>
      simp only [chunksOfAux, List.mem_cons] at hc
      rcases hc with rfl | hc
      · have : x :: xs.take n = (x :: xs).take (n + 1) := rfl
        rw [this]
        exact List.take_sublist _ _
      · exact ((ih n (xs.drop n) c hc).trans (List.drop_sublist n xs)).trans
          (List.sublist_cons_self x xs)

namespace DOMSnapshot

/-- Appending one element to its bucket adds exactly that element to the
combined content of the buckets. -/
theorem appendToBucket_flatten_perm (acc : List (String × List SnapElem))
    (e : SnapElem) :
    List.Perm (((appendToBucket acc e).map Prod.snd).flatten)
      ((acc.map Prod.snd).flatten ++ [e]) := by
  induction acc with
  | nil => simp [appendToBucket]
  | cons p rest ih =>
    by_cases hp : p.1 = e.logicalGroup
    · simp only [appendToBucket, if_pos hp, List.map_cons, List.flatten_cons]
      rw [List.append_assoc, List.append_assoc]
      exact List.perm_append_comm.append_left p.2
    · simp only [appendToBucket, if_neg hp, List.map_cons, List.flatten_cons]
      rw [List.append_assoc]
      exact ih.append_left p.2

/-- Folding `appendToBucket` over the elements accumulates exactly those
elements into the buckets. -/
theorem foldl_appendToBucket_perm :
    ∀ (es : List SnapElem) (acc : List (String × List SnapElem)),
      List.Perm (((es.foldl appendToBucket acc).map Prod.snd).flatten)
        ((acc.map Prod.snd).flatten ++ es) := by
  intro es
  induction es with
  | nil =>
    intro acc
    simp
  | cons e rest ih =>
    intro acc
    have h1 := ih (appendToBucket acc e)
    have h2 := (appendToBucket_flatten_perm acc e).append_right rest
    have h3 := h1.trans h2
    simpa [List.append_assoc] using h3

/-- The buckets of `groupPairs` together hold exactly the input elements. -/
theorem groupPairs_flatten_perm (elements : List SnapElem) :
    List.Perm (((groupPairs elements).map Prod.snd).flatten) elements := by
  simpa using foldl_appendToBucket_perm elements []

/-- Appending an element keeps every bucket a sublist of the extended
prefix. -/
theorem appendToBucket_sublist {pfx : List SnapElem}
    {acc : List (String × List SnapElem)} (h : ∀ p ∈ acc, p.2.Sublist pfx)
    (e : SnapElem) :
    ∀ p ∈ appendToBucket acc e, p.2.Sublist (pfx ++ [e]) := by
  induction acc with
  | nil =>
    intro p hp
    simp only [appendToBucket, List.mem_singleton] at hp
    subst hp
    simp only [List.append_nil]
    exact List.sublist_append_right pfx [e]
  | cons q rest ih =>
    intro p hp
    by_cases hq : q.1 = e.logicalGroup
    · simp only [appendToBucket, if_pos hq, List.mem_cons] at hp
      rcases hp with rfl | hp
      · exact (h q (List.mem_cons_self q rest)).append (List.Sublist.refl [e])
      · exact ((h p (List.mem_cons_of_mem q hp)).trans
          (List.sublist_append_left pfx [e]))
    · simp only [appendToBucket, if_neg hq, List.mem_cons] at hp
      rcases hp with rfl | hp
      · exact (h p (List.mem_cons_self p rest)).trans
          (List.sublist_append_left pfx [e])
      · exact ih (fun r hr => h r (List.mem_cons_of_mem q hr)) p hp

/-- Folding preserves: every bucket is a sublist of prefix ++ processed. -/
theorem foldl_appendToBucket_sublist :
    ∀ (es : List SnapElem) (acc : List (String × List SnapElem))
      (pfx : List SnapElem), (∀ p ∈ acc, p.2.Sublist pfx) →
      ∀ p ∈ es.foldl appendToBucket acc, p.2.Sublist (pfx ++ es) := by
  intro es
  induction es with
  | nil =>
    intro acc pfx h p hp
    simpa using h p hp
  | cons e rest ih =>
    intro acc pfx h p hp
    have step := appendToBucket_sublist h e
    have := ih (appendToBucket acc e) (pfx ++ [e]) step p hp
    simpa [List.append_assoc] using this

/-- Every bucket of `groupPairs` is a sublist of the input. -/
theorem groupPairs_sublist (elements : List SnapElem) :
    ∀ p ∈ groupPairs elements, p.2.Sublist elements := by
  have := foldl_appendToBucket_sublist elements [] [] (by simp)
  simpa using this

/-- The per-bucket output of `groupElementsByLogic` carries exactly the
bucket's elements. -/
theorem bucket_groups_flatten (p : String × List SnapElem) :
    (((if p.2.length ≤ 50 then [SnapGroup.mk p.1 p.2]
      else (chunksOf 50 p.2).enum.map fun q =>
        SnapGroup.mk (p.1 ++ "_part" ++ toString (q.1 + 1)) q.2).map
      SnapGroup.elements).flatten) = p.2 := by
  by_cases hle : p.2.length ≤ 50
  · simp [hle]
  · rw [if_neg hle]
    have henum : ((chunksOf 50 p.2).enum.map fun q =>
        SnapGroup.mk (p.1 ++ "_part" ++ toString (q.1 + 1)) q.2).map
          SnapGroup.elements = (chunksOf 50 p.2).enum.map Prod.snd := by
      rw [List.map_map]
      have : (SnapGroup.elements ∘ fun q : ℕ × List SnapElem =>
          SnapGroup.mk (p.1 ++ "_part" ++ toString (q.1 + 1)) q.2) =
          Prod.snd := by
        funext q
        rfl
      rw [this]
    rw [henum, List.enum_map_snd]
    exact chunksOfAux_flatten p.2.length 49 p.2 (le_refl _)

end DOMSnapshot

/-- Flattening a mapped `flatMap` regroups as a flatten of flattens. -/
theorem flatten_map_flatMap {β γ δ : Type} (fn : β → List γ) (g : γ → List δ)
    (bs : List β) :
    ((bs.flatMap fn).map g).flatten =
      (bs.map fun b => ((fn b).map g).flatten).flatten := by
  induction bs with
  | nil => simp
  | cons b rest ih => simp [List.flatMap_cons, ih]

namespace SmartFieldHandler

/-- A stage built from `find?` only returns options from the list. -/
theorem mem_of_find?_map {p : ShOption → Bool} {c : ℚ}
    {options : List ShOption} {r : ShOption × ℚ}
    (h : (options.find? p).map (fun o => (o, c)) = some r) : r.1 ∈ options := by
  cases hf : options.find? p with
  | none =>
    rw [hf] at h
    exact absurd h (by simp)
  | some o =>
    rw [hf] at h
    cases h
    exact List.mem_of_find?_eq_some hf

/-- A stage built from `findSome?` with a per-option confidence only
returns options from the list. -/
theorem mem_of_findSome?_hit {f : ShOption → Option ℚ}
    {options : List ShOption} {r : ShOption × ℚ}
    (h : (options.findSome? fun o => (f o).map fun c => (o, c)) = some r) :
    r.1 ∈ options := by
  obtain ⟨o, ho, he⟩ := List.exists_of_findSome?_eq_some h
  cases hf : f o with
  | none =>
    rw [hf] at he
    exact absurd he (by simp)
  | some c =>
    rw [hf] at he
    cases he
    exact ho

/-- The containment stage only returns options from the list. -/
theorem containmentStage_mem {tl : String} {options : List ShOption}
    {r : ShOption × ℚ} (h : containmentStage tl options = some r) :
    r.1 ∈ options := by
  unfold containmentStage at h
  obtain ⟨o, ho, he⟩ := List.exists_of_findSome?_eq_some h
  by_cases h1 : pyIn tl (pyLower o.text) || pyIn (pyLower o.text) tl
  · rw [if_pos h1] at he
    cases he
    exact ho
  · rw [if_neg h1] at he
    by_cases h2 : pyIn tl (pyLower o.value) || pyIn (pyLower o.value) tl
    · rw [if_pos h2] at he
      cases he
      exact ho
    · rw [if_neg h2] at he
      exact absurd he (by simp)

/-- The similarity stage only returns options from the list. -/
theorem similarityStage_mem {tl : String} {options : List ShOption}
    {r : ShOption × ℚ} (h : similarityStage tl options = some r) :
    r.1 ∈ options := by
  unfold similarityStage at h
  dsimp only at h
  have key : ∀ o, (options.foldl
      (fun acc o =>
        let sim := max (ratio tl (pyLower o.text)) (ratio tl (pyLower o.value))
        if sim > acc.1 ∧ sim > 3/5 then (sim, some o) else acc)
      ((0 : ℚ), (none : Option ShOption))).2 = some o → o ∈ options := by
    apply List.foldlRecOn _ _ (motive := fun acc : ℚ × Option ShOption =>
      ∀ o, acc.2 = some o → o ∈ options)
    · intro o h0
      exact absurd h0 (by simp)
    · intro acc hacc x hx o ho
      dsimp only at ho
      split at ho
      · cases ho
        exact hx
      · exact hacc o ho
  cases hf : (options.foldl
      (fun acc o =>
        let sim := max (ratio tl (pyLower o.text)) (ratio tl (pyLower o.value))
        if sim > acc.1 ∧ sim > 3/5 then (sim, some o) else acc)
      ((0 : ℚ), (none : Option ShOption))).2 with
  | none =>
    rw [hf] at h
    exact absurd h (by simp)
  | some o =>
    rw [hf] at h
    cases h
    exact key o hf

/-- The domain stage only returns options from the list. -/
theorem domainStage_mem {target : String} {options : List ShOption}
    {fn fl : String} {r : ShOption × ℚ}
    (h : domainStage target options fn fl = some r) : r.1 ∈ options := by
  unfold domainStage at h
  split at h
  · exact mem_of_find?_map h
  · split at h
    · exact mem_of_findSome?_hit h
    · split at h
      · exact mem_of_findSome?_hit h
      · split at h
        · exact mem_of_find?_map h
        · exact absurd h (by simp)

/-- `_find_best_option_match` only ever selects an option from the list. -/
theorem findBestOptionMatch_mem {target : String} {options : List ShOption}
    {fn fl : String} {r : ShOption × ℚ}
    (h : findBestOptionMatch target options fn fl = some r) :
    r.1 ∈ options := by
  unfold findBestOptionMatch at h
  by_cases ht : target = ""
  · rw [if_pos ht] at h
    exact absurd h (by simp)
  · rw [if_neg ht] at h
    dsimp only at h
    cases h1 : exactStage target options with
    | some s =>
      rw [h1] at h
      cases h
      exact mem_of_find?_map h1
    | none =>
    rw [h1] at h
    cases h2 : caseInsensitiveStage (pyStrip (pyLower target)) options with
    | some s =>
      rw [h2] at h
      cases h
      exact mem_of_find?_map h2
    | none =>
    rw [h2] at h
    cases h3 : domainStage target options (pyLower fn) (pyLower fl) with
    | some s =>
      rw [h3] at h
      cases h
      exact domainStage_mem h3
    | none =>
    rw [h3] at h
    cases h4 : containmentStage (pyStrip (pyLower target)) options with
    | some s =>
      rw [h4] at h
      cases h
      exact containmentStage_mem h4
    | none =>
    rw [h4] at h
    cases h5 : acronymStage target options with
    | some s =>
      rw [h5] at h
      cases h
      exact mem_of_find?_map h5
    | none =>
    rw [h5] at h
    cases h6 : similarityStage (pyStrip (pyLower target)) options with
    | some s =>
      rw [h6] at h
      cases h
      exact similarityStage_mem h6
    | none =>
      rw [h6] at h
      exact mem_of_find?_map h

/-- `_find_best_option_match` IS the first-hit ladder of its seven
strategies. -/
theorem findBestOptionMatch_eq_ladder (target : String)
    (options : List ShOption) (fn fl : String) :
    findBestOptionMatch target options fn fl =
      ladderFirstHit target options fn fl := by
  unfold findBestOptionMatch ladderFirstHit
  by_cases ht : target = ""
  · rw [if_pos ht, if_pos ht]
  · rw [if_neg ht, if_neg ht]
    dsimp only
    cases h1 : exactStage target options with
    | some r => simp [h1]
    | none =>
    simp only [h1, Option.none_orElse]
    cases h2 : caseInsensitiveStage (pyStrip (pyLower target)) options with
    | some r => simp [h2]
    | none =>
    simp only [h2, Option.none_orElse]
    cases h3 : domainStage target options (pyLower fn) (pyLower fl) with
    | some r => simp [h3]
    | none =>
    simp only [h3, Option.none_orElse]
    cases h4 : containmentStage (pyStrip (pyLower target)) options with
    | some r => simp [h4]
    | none =>
    simp only [h4, Option.none_orElse]
    cases h5 : acronymStage target options with
    | some r => simp [h5]
    | none =>
    simp only [h5, Option.none_orElse]
    cases h6 : similarityStage (pyStrip (pyLower target)) options with
    | some r => simp [h6]
    | none => simp [h6]

end SmartFieldHandler

namespace ProFormFiller

/-- What a successful per-element fallback action looks like: it comes from
the first rule whose keyword test and profile value are non-trivial, and it
always carries confidence 0.7. -/
theorem elemFallbackAction_spec (pd : PersonalData) (e : PfElem)
    (a : RawAction) (ha : elemFallbackAction pd e = some a) :
    a.confidence = some (7/10) ∧
    ∃ r ∈ fallbackRules,
      fallbackRules.find? (fun r =>
        r.1.any (fun kw => pyIn kw (combinedText e)) &&
          !(ruleValue pd r.2.1 == "")) = some r ∧
      (r.1.any fun kw => pyIn kw (combinedText e)) = true ∧
      ruleValue pd r.2.1 ≠ "" ∧
      a.semantic = some r.2.1 ∧ a.control = some r.2.2 ∧
      a.value = some (ruleValue pd r.2.1) := by
  unfold elemFallbackAction at ha
  dsimp only at ha
  cases hfind : fallbackRules.find? (fun r =>
      r.1.any (fun kw => pyIn kw (combinedText e)) &&
        !(ruleValue pd r.2.1 == "")) with
  | none =>
    rw [hfind] at ha
    exact absurd ha (by simp)
  | some r =>
    rw [hfind] at ha
    dsimp only at ha
    have hmem := List.mem_of_find?_eq_some hfind
    have hpred := List.find?_some hfind
    rw [Bool.and_eq_true] at hpred
    have hval : ruleValue pd r.2.1 ≠ "" := by
      have := hpred.2
      simpa using this
    by_cases hid : e.id ≠ ""
    · rw [if_pos hid] at ha
      cases ha
      exact ⟨rfl, r, hmem, rfl, hpred.1, hval, rfl, rfl, rfl⟩
    · rw [if_neg hid] at ha
      by_cases hname : e.name ≠ ""
      · rw [if_pos hname] at ha
        cases ha
        exact ⟨rfl, r, hmem, rfl, hpred.1, hval, rfl, rfl, rfl⟩
      · rw [if_neg hname] at ha
        exact absurd ha (by simp)

end ProFormFiller

/-- Assigning key `k` makes `k` read back as `v`. -/
theorem dGet_setKey_self {α : Type} (d : List (String × α)) (k : String) (v : α) :
    dGet (setKey d k v) k = some v := by
  induction d with
  | nil => simp [setKey, dGet]
  | cons p rest ih =>
    by_cases hp : p.1 = k
    · simp [setKey, hp, dGet]
    · simp only [setKey, if_neg hp]
      simp only [dGet] at ih ⊢
      rw [List.find?_cons_of_neg _ (by simpa using hp)]
      exact ih

/-- Assigning key `k` leaves other keys unchanged. -/
theorem dGet_setKey_other {α : Type} (d : List (String × α)) (k k' : String)
    (v : α) (h : k' ≠ k) : dGet (setKey d k v) k' = dGet d k' := by
  induction d with
  | nil => simp [setKey, dGet, Ne.symm h]
  | cons p rest ih =>
    by_cases hp : p.1 = k
    · simp only [setKey, if_pos hp]
      simp only [dGet]
      rw [List.find?_cons_of_neg _ (by simpa using Ne.symm h),
        List.find?_cons_of_neg _ (by simp [hp, Ne.symm h])]
    · simp only [setKey, if_neg hp]
      by_cases hp' : p.1 = k'
      · simp only [dGet]
        rw [List.find?_cons_of_pos _ (by simpa using hp'),
          List.find?_cons_of_pos _ (by simpa using hp')]
      · simp only [dGet] at ih ⊢
        rw [List.find?_cons_of_neg _ (by simpa using hp'),
          List.find?_cons_of_neg _ (by simpa using hp')]
        exact ih

/-- `dict.update` semantics at one key: the last occurrence in the update
wins, otherwise the original binding survives. -/
theorem dGet_dictUpdate {α : Type} :
    ∀ (upd d : List (String × α)) (k : String),
      dGet (dictUpdate d upd) k = (dGet upd.reverse k).or (dGet d k) := by
  intro upd
  induction upd with
  | nil => intro d k; simp [dictUpdate, dGet]
  | cons p rest ih =>
    intro d k
    have hstep : dictUpdate d (p :: rest) = dictUpdate (setKey d p.1 p.2) rest := rfl
    rw [hstep, ih]
    have hrev : (p :: rest).reverse = rest.reverse ++ [p] := by simp
    rw [hrev]
    simp only [dGet, List.find?_append]
    cases hfr : List.find? (fun q => decide (q.1 = k)) rest.reverse with
    | some q => simp [hfr]
    | none =>
      by_cases hk : p.1 = k
      · subst hk
        have h1 : List.find? (fun q => decide (q.1 = p.1)) [p] = some p := by simp
        rw [h1]
        have h2 := dGet_setKey_self d p.1 p.2
        simp only [dGet] at h2
        simp [h2]
      · have h1 : List.find? (fun q => decide (q.1 = k)) [p] = none := by simp [hk]
        rw [h1]
        have h2 := dGet_setKey_other d p.1 k p.2 (Ne.symm hk)
        simp only [dGet] at h2
        simp [h2]

/-- C3: the field mapper analyzes at most 30 fields in one batch; a longer
list is split into consecutive 20-element chunks (only the last may be
smaller) that together cover the list, and the per-chunk mappings are
merged with `dict.update`, so at one selector the LAST chunk that maps it
wins — not the first as claimed. -/
theorem Claim3_amended_chunking (β α : Type)
    (batch : List β → List (String × α)) (fields : List β) :
    (fields.length ≤ 30 →
      SmartFormFiller.analyzeAndMatchFields batch fields = batch fields) ∧
    (fields.length > 30 →
      SmartFormFiller.analyzeAndMatchFields batch fields =
        (chunksOf 20 fields).foldl (fun acc c => dictUpdate acc (batch c)) []) ∧
    (chunksOf 20 fields).flatten = fields ∧
    (∀ c ∈ chunksOf 20 fields, c.length ≤ 20) ∧
    (∀ c ∈ (chunksOf 20 fields).dropLast, c.length = 20) ∧
    (∀ (d upd : List (String × α)) (k : String),
      dGet (dictUpdate d upd) k = (dGet upd.reverse k).or (dGet d k)) := by
  refine ⟨?_, ?_, ?_, ?_, ?_, fun d upd k => dGet_dictUpdate upd d k⟩
  · intro h30
    rw [SmartFormFiller.analyzeAndMatchFields, if_neg (by omega)]
  · intro h30
    rw [SmartFormFiller.analyzeAndMatchFields, if_pos h30]
    rfl
  · exact chunksOfAux_flatten fields.length 19 fields (le_refl _)
  · exact chunksOfAux_length_le fields.length 19 fields
  · exact chunksOfAux_dropLast_length fields.length 19 fields (le_refl _)

/-- Counterexample for C3 as stated: with 31 fields, the two batches both
map selector `"s"`, and the merged result holds the second batch's mapping,
not the first's. -/
theorem Claim3_counterexample :
    SmartFormFiller.analyzeAndMatchFields
        (fun chunk : List ℕ =>
          if chunk.length = 20 then [("s", "first")] else [("s", "second")])
        (List.range 31) = [("s", "second")] ∧
    ("second" : String) ≠ "first" := by
  refine ⟨by decide, by decide⟩

/-- Witness for C3 at a short (≤ 30) and a long (> 30) field list. -/
theorem Claim3_witness :
    SmartFormFiller.analyzeAndMatchFields
        (fun chunk : List ℕ => [("n", chunk.length)]) (List.range 7) =
      [("n", 7)] ∧
    SmartFormFiller.analyzeAndMatchFields
        (fun chunk : List ℕ => [("n", chunk.length)]) (List.range 31) =
      (chunksOf 20 (List.range 31)).foldl
        (fun acc c => dictUpdate acc [("n", c.length)]) [] :=
  ⟨by rw [(Claim3_amended_chunking ℕ ℕ _ (List.range 7)).1 (by decide)]; decide,
   (Claim3_amended_chunking ℕ ℕ _ (List.range 31)).2.1 (by decide)⟩

/-- C5 (amended): the keyword fallback runs only when the LLM call raises —
a non-array (non-`actions`-dict) response yields no actions — and each
fallback action comes from the first rule in the ordered table with ANY of
its keywords contained in the element's combined text (label, placeholder,
aria-label, name, id) and a non-empty profile value, carrying confidence
exactly 0.7; an element whose text contains only `name` therefore already
maps to `first_name`. -/
theorem Claim5_amended_fallback (group : List ProFormFiller.PfElem)
    (pd : ProFormFiller.PersonalData) (resumePath : String) :
    ProFormFiller.analyzeElementGroup .exn group pd resumePath =
      ProFormFiller.fallbackAnalysis group pd ∧
    ProFormFiller.analyzeElementGroup .other group pd resumePath = [] ∧
    (∀ a ∈ ProFormFiller.fallbackAnalysis group pd,
      a.confidence = some (7/10)) ∧
    (∀ e ∈ group, ∀ a, ProFormFiller.elemFallbackAction pd e = some a →
      ∃ r ∈ ProFormFiller.fallbackRules,
        (r.1.any fun kw => pyIn kw (ProFormFiller.combinedText e)) = true ∧
        ProFormFiller.ruleValue pd r.2.1 ≠ "" ∧
        a.semantic = some r.2.1 ∧ a.control = some r.2.2 ∧
        a.value = some (ProFormFiller.ruleValue pd r.2.1)) ∧
    ProFormFiller.elemFallbackAction ⟨fun _ => "X", "/r.pdf"⟩
        ⟨"name", "", "", "", "f1"⟩ =
      some ⟨some "#f1", some "text", some "X", some "first_name",
        some (7/10)⟩ := by
  refine ⟨rfl, rfl, ?_, ?_, by decide⟩
  · intro a ha
    rw [ProFormFiller.fallbackAnalysis, List.mem_filterMap] at ha
    obtain ⟨e, _, he⟩ := ha
    exact (ProFormFiller.elemFallbackAction_spec pd e a he).1
  · intro e _ a ha
    obtain ⟨_, r, hmem, _, hany, hval, hsem, hctrl, hv⟩ :=
      ProFormFiller.elemFallbackAction_spec pd e a ha
    exact ⟨r, hmem, hany, hval, hsem, hctrl, hv⟩

/-- Counterexample for C5 as stated: the LLM returning a non-array does NOT
trigger the keyword fallback — the mapper returns no actions even though
the fallback table would map the element. -/
theorem Claim5_counterexample :
    ProFormFiller.analyzeElementGroup .other
        [⟨"Email", "", "", "email", "em1"⟩]
        ⟨fun k => if k = "email" then "a@b.c" else "", "/r.pdf"⟩ "/r.pdf" =
      [] ∧
    ProFormFiller.fallbackAnalysis [⟨"Email", "", "", "email", "em1"⟩]
        ⟨fun k => if k = "email" then "a@b.c" else "", "/r.pdf"⟩ =
      [⟨some "#em1", some "text", some "a@b.c", some "email", some (7/10)⟩] :=
  ⟨rfl, by decide⟩

/-- Witness for C5: the fallback on a phone field produces the phone value
with confidence 0.7 via the `phone` rule. -/
theorem Claim5_witness :
    (∀ a ∈ ProFormFiller.fallbackAnalysis
        [⟨"Phone number", "", "", "phone", "ph1"⟩]
        ⟨fun k => if k = "phone" then "555" else "", "/r.pdf"⟩,
      a.confidence = some (7/10)) ∧
    (∃ r ∈ ProFormFiller.fallbackRules,
      (r.1.any fun kw => pyIn kw (ProFormFiller.combinedText
        ⟨"Phone number", "", "", "phone", "ph1"⟩)) = true ∧
      ProFormFiller.ruleValue
        ⟨fun k => if k = "phone" then "555" else "", "/r.pdf"⟩ r.2.1 ≠ "" ∧
      (⟨some "#ph1", some "text", some "555", some "phone", some (7/10)⟩ :
        ProFormFiller.RawAction).semantic = some r.2.1 ∧
      (⟨some "#ph1", some "text", some "555", some "phone", some (7/10)⟩ :
        ProFormFiller.RawAction).control = some r.2.2 ∧
      (⟨some "#ph1", some "text", some "555", some "phone", some (7/10)⟩ :
        ProFormFiller.RawAction).value = some (ProFormFiller.ruleValue
          ⟨fun k => if k = "phone" then "555" else "", "/r.pdf"⟩ r.2.1)) :=
  ⟨(Claim5_amended_fallback [⟨"Phone number", "", "", "phone", "ph1"⟩]
      ⟨fun k => if k = "phone" then "555" else "", "/r.pdf"⟩ "/r.pdf").2.2.1,
   (Claim5_amended_fallback [⟨"Phone number", "", "", "phone", "ph1"⟩]
      ⟨fun k => if k = "phone" then "555" else "", "/r.pdf"⟩ "/r.pdf").2.2.2.1
     ⟨"Phone number", "", "", "phone", "ph1"⟩ (by decide) _ (by decide)⟩

/-- C6: snapshot grouping caps every logical group at 50 elements, splits a
51-element group into `_part1`/`_part2` while a 50-element group stays
whole, partitions the input (each element lands in exactly one group), and
preserves the input order inside every group. -/
theorem Claim6_snapshot_grouping (elements : List DOMSnapshot.SnapElem) :
    (∀ g ∈ DOMSnapshot.groupElementsByLogic elements 50,
      g.elements.length ≤ 50) ∧
    List.Perm (((DOMSnapshot.groupElementsByLogic elements 50).map
      DOMSnapshot.SnapGroup.elements).flatten) elements ∧
    (∀ g ∈ DOMSnapshot.groupElementsByLogic elements 50,
      g.elements.Sublist elements) ∧
    DOMSnapshot.groupElementsByLogic
        ((List.range 50).map fun i => ⟨i, "default"⟩) 50 =
      [⟨"default", (List.range 50).map fun i => ⟨i, "default"⟩⟩] ∧
    DOMSnapshot.groupElementsByLogic
        ((List.range 51).map fun i => ⟨i, "default"⟩) 50 =
      [⟨"default_part1", (List.range 50).map fun i => ⟨i, "default"⟩⟩,
       ⟨"default_part2", [⟨50, "default"⟩]⟩] := by
  have hmem : ∀ g ∈ DOMSnapshot.groupElementsByLogic elements 50,
      ∃ p ∈ DOMSnapshot.groupPairs elements,
        (p.2.length ≤ 50 ∧ g = ⟨p.1, p.2⟩) ∨
        (¬ p.2.length ≤ 50 ∧ g.elements ∈ chunksOf 50 p.2) := by
    intro g hg
    rw [DOMSnapshot.groupElementsByLogic, List.mem_flatMap] at hg
    obtain ⟨p, hp, hgp⟩ := hg
    refine ⟨p, hp, ?_⟩
    by_cases hle : p.2.length ≤ 50
    · left
      rw [if_pos hle, List.mem_singleton] at hgp
      exact ⟨hle, hgp⟩
    · right
      rw [if_neg hle, List.mem_map] at hgp
      obtain ⟨q, hq, rfl⟩ := hgp
      refine ⟨hle, ?_⟩
      have : q.2 ∈ (chunksOf 50 p.2).enum.map Prod.snd :=
        List.mem_map_of_mem Prod.snd hq
      rwa [List.enum_map_snd] at this
  refine ⟨?_, ?_, ?_, by decide, by decide⟩
  · intro g hg
    obtain ⟨p, _, hcase⟩ := hmem g hg
    rcases hcase with ⟨hle, rfl⟩ | ⟨_, hchunk⟩
    · exact hle
    · exact chunksOfAux_length_le p.2.length 49 p.2 g.elements hchunk
  · have hcongr : ((DOMSnapshot.groupElementsByLogic elements 50).map
        DOMSnapshot.SnapGroup.elements).flatten =
        ((DOMSnapshot.groupPairs elements).map Prod.snd).flatten := by
      rw [DOMSnapshot.groupElementsByLogic,
        flatten_map_flatMap _ DOMSnapshot.SnapGroup.elements]
      congr 1
      apply List.map_congr_left
      intro p _
      exact DOMSnapshot.bucket_groups_flatten p
    rw [hcongr]
    exact DOMSnapshot.groupPairs_flatten_perm elements
  · intro g hg
    obtain ⟨p, hp, hcase⟩ := hmem g hg
    have hpsub : p.2.Sublist elements := DOMSnapshot.groupPairs_sublist elements p hp
    rcases hcase with ⟨_, rfl⟩ | ⟨_, hchunk⟩
    · exact hpsub
    · exact (chunksOfAux_sublist p.2.length 49 p.2 g.elements hchunk).trans hpsub

/-- Witness for C6: in the 51-element snapshot the first split group holds
50 elements, is a sublist of the input, and the whole grouping partitions
the input. -/
theorem Claim6_witness :
    (DOMSnapshot.SnapGroup.mk "default_part1"
        ((List.range 50).map fun i => ⟨i, "default"⟩)).elements.length ≤ 50 ∧
    (DOMSnapshot.SnapGroup.mk "default_part1"
        ((List.range 50).map fun i => ⟨i, "default"⟩)).elements.Sublist
      ((List.range 51).map fun i => ⟨i, "default"⟩) :=
  ⟨(Claim6_snapshot_grouping ((List.range 51).map fun i => ⟨i, "default"⟩)).1
      _ (by decide),
   (Claim6_snapshot_grouping ((List.range 51).map fun i => ⟨i, "default"⟩)).2.2.1
      _ (by decide)⟩

namespace PageAnalyzer

/-- `sortRel` spelt out: strictly higher confidence, or equal confidence
and priority score at least as high. -/
theorem sortRel_iff (a b : CTACandidate) :
    sortRel a b ↔
      (b.confidence < a.confidence ∨
        (a.confidence = b.confidence ∧ b.priorityScore ≤ a.priorityScore)) := by
  unfold sortRel ctaLt
  constructor
  · intro h
    by_cases hc : a.confidence = b.confidence
    · right
      refine ⟨hc, ?_⟩
      by_contra hp
      push_neg at hp
      exact h (Or.inr ⟨hc.symm, hp⟩)
    · left
      rcases lt_trichotomy a.confidence b.confidence with hlt | heq | hgt
      · exact absurd (Or.inl ⟨Ne.symm hc, hlt⟩) h
      · exact absurd heq hc
      · exact hgt
  · rintro (h | ⟨heq, hp⟩) hcontra
    · rcases hcontra with ⟨_, hgt⟩ | ⟨heq2, _⟩
      · exact absurd h (not_lt.mpr (le_of_lt hgt))
      · exact h.ne heq2
    · rcases hcontra with ⟨hne, _⟩ | ⟨_, hpgt⟩
      · exact hne heq.symm
      · exact absurd hpgt (not_lt.mpr hp)

instance : IsTotal CTACandidate sortRel := ⟨by
  intro a b
  rw [sortRel_iff, sortRel_iff]
  rcases lt_trichotomy a.confidence b.confidence with h | h | h
  · right
    left
    exact h
  · rcases le_total b.priorityScore a.priorityScore with hp | hp
    · left
      right
      exact ⟨h, hp⟩
    · right
      right
      exact ⟨h.symm, hp⟩
  · left
    left
    exact h⟩

instance : IsTrans CTACandidate sortRel := ⟨by
  intro a b c hab hbc
  rw [sortRel_iff] at hab hbc ⊢
  rcases hab with h1 | ⟨e1, p1⟩ <;> rcases hbc with h2 | ⟨e2, p2⟩
  · left
    exact h2.trans h1
  · left
    exact e2 ▸ h1
  · left
    exact lt_of_lt_of_le h2 (le_of_eq e1.symm)
  · right
    exact ⟨e1.trans e2, p2.trans p1⟩⟩

/-- `pySorted` output is pairwise ordered by `sortRel`. -/
theorem pairwise_pySorted (l : List CTACandidate) :
    (pySorted l).Pairwise sortRel :=
  List.sorted_insertionSort sortRel l

end PageAnalyzer

/-- C10: every `PageAnalysisResult` returned by `analyze_page` has its
`cta_candidates` sorted by non-increasing confidence with ties broken by
non-increasing priority score; consequently, whenever the list is non-empty
the candidate at index 0 (the one the `should_proceed` decisions inspect)
has maximal confidence. -/
theorem Claim10_cta_ranking (url title : String)
    (outcome : PageAnalyzer.AnalyzeOutcome) :
    ((PageAnalyzer.analyzePage url title outcome).ctaCandidates.Pairwise
      fun a b =>
        b.confidence ≤ a.confidence ∧
          (a.confidence = b.confidence → b.priorityScore ≤ a.priorityScore)) ∧
    (∀ best rest,
      (PageAnalyzer.analyzePage url title outcome).ctaCandidates = best :: rest →
      ∀ c ∈ (PageAnalyzer.analyzePage url title outcome).ctaCandidates,
        c.confidence ≤ best.confidence) := by
  have hpair : ((PageAnalyzer.analyzePage url title outcome).ctaCandidates).Pairwise
      PageAnalyzer.sortRel := by
    cases outcome with
    | ok pt conf fc hab ctas reasoning =>
      exact PageAnalyzer.pairwise_pySorted ctas
    | exn msg => exact List.Pairwise.nil
  constructor
  · refine hpair.imp ?_
    intro a b hab
    rcases (PageAnalyzer.sortRel_iff a b).mp hab with h | ⟨heq, hp⟩
    · exact ⟨le_of_lt h, fun he => absurd he (ne_of_gt h)⟩
    · exact ⟨le_of_eq heq.symm, fun _ => hp⟩
  · intro best rest heq c hc
    rw [heq] at hpair hc
    rcases List.mem_cons.mp hc with rfl | hmem
    · exact le_refl _
    · have hrel := (List.pairwise_cons.mp hpair).1 c hmem
      rcases (PageAnalyzer.sortRel_iff best c).mp hrel with h | ⟨heq2, _⟩
      · exact le_of_lt h
      · exact le_of_eq heq2.symm

/-- Witness for C10: two concrete candidates are re-ranked so that the
higher-confidence one comes first, and its confidence dominates. -/
theorem Claim10_witness :
    (PageAnalyzer.analyzePage "u" "t"
        (.ok "job_detail" 1 0 false
          [⟨"Apply", "#a", 1/2, "button", 5⟩, ⟨"Go", "#b", 9/10, "button", 1⟩]
          "r")).ctaCandidates =
      [⟨"Go", "#b", 9/10, "button", 1⟩, ⟨"Apply", "#a", 1/2, "button", 5⟩] ∧
    ∀ c ∈ (PageAnalyzer.analyzePage "u" "t"
        (.ok "job_detail" 1 0 false
          [⟨"Apply", "#a", 1/2, "button", 5⟩, ⟨"Go", "#b", 9/10, "button", 1⟩]
          "r")).ctaCandidates,
      c.confidence ≤ (9/10 : ℚ) :=
  ⟨by decide,
   (Claim10_cta_ranking "u" "t"
      (.ok "job_detail" 1 0 false
        [⟨"Apply", "#a", 1/2, "button", 5⟩, ⟨"Go", "#b", 9/10, "button", 1⟩]
        "r")).2
     ⟨"Go", "#b", 9/10, "button", 1⟩ [⟨"Apply", "#a", 1/2, "button", 5⟩]
     (by decide)⟩



/-- C1 (amended): the SmartFieldHandler's option matcher implements the
deterministic first-hit ladder — exact equality, case-insensitive equality,
domain mappings (country / state / year / degree, selected by field
name/label), substring containment, acronym match, best `SequenceMatcher`
similarity strictly above 0.6, and finally the first non-placeholder
option at confidence 0.3 — it only ever selects one of the offered
options, and on the Country example it selects "United States" with
confidence 0.9 via the country mapping. -/
theorem Claim1_amended_option_ladder (target : String)
    (options : List SmartFieldHandler.ShOption) (fieldName fieldLabel : String) :
    SmartFieldHandler.findBestOptionMatch target options fieldName fieldLabel =
      SmartFieldHandler.ladderFirstHit target options fieldName fieldLabel ∧
    (∀ r, SmartFieldHandler.findBestOptionMatch target options fieldName
        fieldLabel = some r → r.1 ∈ options) ∧
    SmartFieldHandler.findBestOptionMatch "US"
        (SmartFieldHandler.getSelectOptions
          [("", ""), ("United States", "United States"), ("Canada", "Canada"),
           ("United Kingdom", "United Kingdom")])
        "country" "" = some (⟨1, "United States", "United States"⟩, 9/10) := by
  refine ⟨SmartFieldHandler.findBestOptionMatch_eq_ladder target options
    fieldName fieldLabel,
    fun r h => SmartFieldHandler.findBestOptionMatch_mem h, ?_⟩
  set_option maxRecDepth 10000 in decide

/-- Counterexample for C1 as stated: `ActionExecutor._fuzzy_match_option`,
the option matcher of the native-select fill path that the claim cites,
has no domain-mapping rung — on the Country example it selects the empty
placeholder option (by empty-string containment) instead of
"United States". -/
theorem Claim1_counterexample :
    ActionExecutor.fuzzyMatchOption "US"
        [⟨"", "", 0⟩, ⟨"United States", "United States", 1⟩,
         ⟨"Canada", "Canada", 2⟩, ⟨"United Kingdom", "United Kingdom", 3⟩] =
      some ⟨"", "", 0⟩ ∧
    some (⟨"", "", 0⟩ : ActionExecutor.ExOption) ≠
      some ⟨"United States", "United States", 1⟩ := by
  constructor
  · set_option maxRecDepth 10000 in decide
  · decide

/-- Witness for C1: the option selected on the Country example is one of
the offered options. -/
theorem Claim1_witness :
    (⟨1, "United States", "United States"⟩ : SmartFieldHandler.ShOption) ∈
      SmartFieldHandler.getSelectOptions
        [("", ""), ("United States", "United States"), ("Canada", "Canada"),
         ("United Kingdom", "United Kingdom")] :=
  (Claim1_amended_option_ladder "US"
      (SmartFieldHandler.getSelectOptions
        [("", ""), ("United States", "United States"), ("Canada", "Canada"),
         ("United Kingdom", "United Kingdom")])
      "country" "").2.1 (⟨1, "United States", "United States"⟩, 9/10)
    (by set_option maxRecDepth 10000 in decide)

/-! ### C4 — the schema repair pass of `gpt_service.py` -/

namespace GPTService

/-- A `condSet` step never changes a key that is already present. -/
theorem dGet_condSet_present (d : List (String × PVal)) (k k' : String)
    (v : PVal) (h : (dGet d k').isSome) :
    dGet (condSet d k v) k' = dGet d k' := by
  unfold condSet
  split
  · rename_i hnone
    by_cases hk : k' = k
    · subst hk
      rw [Option.isNone_iff_eq_none] at hnone
      rw [hnone] at h
      simp at h
    · exact dGet_setKey_other d k k' v hk
  · rfl

/-- Folding `condSet` steps never changes a key that is already present. -/
theorem dGet_foldl_condSet (ds : List (String × PVal)) :
    ∀ (d : List (String × PVal)) (k : String), (dGet d k).isSome →
      dGet (ds.foldl (fun acc p => condSet acc p.1 p.2) d) k = dGet d k := by
  induction ds with
  | nil => intro d k _; rfl
  | cons p rest ih =>
    intro d k h
    have hc := dGet_condSet_present d p.1 k p.2 h
    have h2 : (dGet (condSet d p.1 p.2) k).isSome := by rw [hc]; exact h
    simp only [List.foldl_cons]
    rw [ih _ _ h2, hc]

/-- The missing-field pass never changes a key that is already present. -/
theorem dGet_fixMissing (d : List (String × PVal)) (k : String)
    (h : (dGet d k).isSome) : dGet (fixMissing d) k = dGet d k :=
  dGet_foldl_condSet missingDefaults d k h

/-- The page-type pass only writes the key `page_type`. -/
theorem dGet_fixPageType_ne (r : List (String × PVal)) (k : String)
    (h : k ≠ "page_type") : dGet (fixPageType r) k = dGet r k := by
  unfold fixPageType
  split
  · split
    · rfl
    · exact dGet_setKey_other _ _ _ _ h
  · exact dGet_setKey_other _ _ _ _ h

/-- The confidence pass only writes the key `confidence`. -/
theorem dGet_fixConfidence_ne (r : List (String × PVal)) (k : String)
    (h : k ≠ "confidence") : dGet (fixConfidence r) k = dGet r k := by
  unfold fixConfidence
  split
  · split
    · rfl
    · exact dGet_setKey_other _ _ _ _ h
  · exact dGet_setKey_other _ _ _ _ h

/-- The form-count pass only writes the key `form_count`. -/
theorem dGet_fixFormCount_ne (r : List (String × PVal)) (k : String)
    (h : k ≠ "form_count") : dGet (fixFormCount r) k = dGet r k := by
  unfold fixFormCount
  split
  · split
    · exact dGet_setKey_other _ _ _ _ h
    · rfl
  · exact dGet_setKey_other _ _ _ _ h

/-- The cta-candidates pass only writes the key `cta_candidates`. -/
theorem dGet_fixCtaList_ne (r : List (String × PVal)) (k : String)
    (h : k ≠ "cta_candidates") : dGet (fixCtaList r) k = dGet r k := by
  unfold fixCtaList
  split
  · exact dGet_setKey_other _ _ _ _ h
  · exact dGet_setKey_other _ _ _ _ h

/-- A successful recommended-action pass only writes `recommended_action`. -/
theorem dGet_fixActionPass_ne (r f : List (String × PVal)) (k : String)
    (h : k ≠ "recommended_action") (hok : fixActionPass r = .ok f) :
    dGet f k = dGet r k := by
  unfold fixActionPass at hok
  split at hok
  · rename_i d hd
    cases hfx : fixRecommendedActionDict d with
    | error e => rw [hfx] at hok; cases hok
    | ok a =>
      rw [hfx] at hok
      simp only [Except.map] at hok
      injection hok with h3
      rw [← h3]
      exact dGet_setKey_other _ _ _ _ h
  · injection hok with h3
    rw [← h3]
    exact dGet_setKey_other _ _ _ _ h

/-- The confidence pass resets an out-of-range numeric confidence to `0`
without any rescaling. -/
theorem fixConfidence_reset (r : List (String × PVal)) (q : ℚ)
    (hc : dGet r "confidence" = some (.pfloat q)) (hq : ¬(0 ≤ q ∧ q ≤ 1)) :
    dGet (fixConfidence r) "confidence" = some (.pfloat 0) := by
  unfold fixConfidence
  rw [hc]
  have hb : (some (PVal.pfloat q)).bind pyNum? = some q := rfl
  rw [hb]
  dsimp only
  rw [if_neg hq]
  exact dGet_setKey_self r "confidence" (.pfloat 0)

/-- The page-type pass resets an out-of-enum page type to `unknown`. -/
theorem fixPageType_reset (r : List (String × PVal)) (s : String)
    (hp : dGet r "page_type" = some (.pstr s))
    (hs : validPageTypes.contains s = false) :
    dGet (fixPageType r) "page_type" = some (.pstr "unknown") := by
  unfold fixPageType
  rw [hp]
  dsimp only
  rw [hs]
  simp only [Bool.false_eq_true, if_false]
  exact dGet_setKey_self r "page_type" (.pstr "unknown")

/-- Through the whole repair chain, a numeric top-level confidence outside
`[0,1]` becomes `0` — it is never divided by `10`. -/
theorem fixChain_confidence (r : List (String × PVal)) (q : ℚ)
    (f : List (String × PVal))
    (h1 : dGet r "confidence" = some (PVal.pfloat q))
    (hq : ¬(0 ≤ q ∧ q ≤ 1)) (h2 : fixPageAnalysisErrors r = .ok f) :
    dGet f "confidence" = some (PVal.pfloat 0) := by
  have h0 : (dGet r "confidence").isSome := by rw [h1]; rfl
  have e1 : dGet (fixMissing r) "confidence" = some (PVal.pfloat q) := by
    rw [dGet_fixMissing r "confidence" h0]; exact h1
  have e2 : dGet (fixPageType (fixMissing r)) "confidence"
      = some (PVal.pfloat q) := by
    rw [dGet_fixPageType_ne _ _ (by decide)]; exact e1
  have e3 : dGet (fixConfidence (fixPageType (fixMissing r))) "confidence"
      = some (PVal.pfloat 0) := fixConfidence_reset _ q e2 hq
  have e4 : dGet (fixFormCount (fixConfidence (fixPageType (fixMissing r))))
      "confidence" = some (PVal.pfloat 0) := by
    rw [dGet_fixFormCount_ne _ _ (by decide)]; exact e3
  have e5 : dGet (fixCtaList (fixFormCount (fixConfidence (fixPageType
      (fixMissing r))))) "confidence" = some (PVal.pfloat 0) := by
    rw [dGet_fixCtaList_ne _ _ (by decide)]; exact e4
  unfold fixPageAnalysisErrors at h2
  rw [dGet_fixActionPass_ne _ f "confidence" (by decide) h2]
  exact e5

/-- Through the whole repair chain, an out-of-enum page type becomes
`unknown`. -/
theorem fixChain_pageType (r : List (String × PVal)) (s : String)
    (f : List (String × PVal))
    (h1 : dGet r "page_type" = some (PVal.pstr s))
    (hs : validPageTypes.contains s = false)
    (h2 : fixPageAnalysisErrors r = .ok f) :
    dGet f "page_type" = some (PVal.pstr "unknown") := by
  have h0 : (dGet r "page_type").isSome := by rw [h1]; rfl
  have e1 : dGet (fixMissing r) "page_type" = some (PVal.pstr s) := by
    rw [dGet_fixMissing r "page_type" h0]; exact h1
  have e2 : dGet (fixPageType (fixMissing r)) "page_type"
      = some (PVal.pstr "unknown") := fixPageType_reset _ s e1 hs
  have e3 : dGet (fixConfidence (fixPageType (fixMissing r))) "page_type"
      = some (PVal.pstr "unknown") := by
    rw [dGet_fixConfidence_ne _ _ (by decide)]; exact e2
  have e4 : dGet (fixFormCount (fixConfidence (fixPageType (fixMissing r))))
      "page_type" = some (PVal.pstr "unknown") := by
    rw [dGet_fixFormCount_ne _ _ (by decide)]; exact e3
  have e5 : dGet (fixCtaList (fixFormCount (fixConfidence (fixPageType
      (fixMissing r))))) "page_type" = some (PVal.pstr "unknown") := by
    rw [dGet_fixCtaList_ne _ _ (by decide)]; exact e4
  unfold fixPageAnalysisErrors at h2
  rw [dGet_fixActionPass_ne _ f "page_type" (by decide) h2]
  exact e5

/-- `_fix_cta_candidate` rescales a numeric confidence: kept in `[0,1]`,
divided by 10 in `[1,10]`, zeroed otherwise. -/
theorem fixCtaCandidate_confidence (cta : List (String × PVal)) (q : ℚ)
    (f : List (String × PVal))
    (h1 : dGet cta "confidence" = some (PVal.pfloat q))
    (h2 : fixCtaCandidate cta = some f) :
    dGet f "confidence" = some (PVal.pfloat
      (if 0 ≤ q ∧ q ≤ 1 then q else if 1 ≤ q ∧ q ≤ 10 then q / 10 else 0)) := by
  unfold fixCtaCandidate at h2
  rw [h1] at h2
  simp only [Option.getD_some, pyFloat?] at h2
  cases hp : pyInt? ((dGet cta "priority_score").getD (.pint 1)) with
  | none => rw [hp] at h2; simp at h2
  | some p =>
    rw [hp] at h2
    dsimp only at h2
    injection h2 with h3
    rw [← h3]
    simp only [dGet]
    rw [List.find?_cons_of_neg _ (by simp), List.find?_cons_of_neg _ (by simp),
      List.find?_cons_of_pos _ (by simp)]
    rfl

/-- `_fix_cta_candidate` replaces an out-of-enum element type with
`button`. -/
theorem fixCtaCandidate_elementType (cta : List (String × PVal)) (s : String)
    (f : List (String × PVal))
    (h1 : dGet cta "element_type" = some (PVal.pstr s))
    (hs : validElementTypes.contains s = false)
    (h2 : fixCtaCandidate cta = some f) :
    dGet f "element_type" = some (PVal.pstr "button") := by
  unfold fixCtaCandidate at h2
  rw [h1] at h2
  cases hcf : pyFloat? ((dGet cta "confidence").getD (.pfloat 0)) with
  | none => rw [hcf] at h2; simp at h2
  | some c =>
    rw [hcf] at h2
    cases hp : pyInt? ((dGet cta "priority_score").getD (.pint 1)) with
    | none => rw [hp] at h2; simp at h2
    | some p =>
      rw [hp] at h2
      dsimp only at h2
      simp only [Option.getD_some, pyStr] at h2
      rw [hs] at h2
      simp only [Bool.false_eq_true, if_false] at h2
      injection h2 with h3
      rw [← h3]
      simp only [dGet]
      rw [List.find?_cons_of_neg _ (by simp), List.find?_cons_of_neg _ (by simp),
        List.find?_cons_of_neg _ (by simp), List.find?_cons_of_pos _ (by simp)]
      rfl

/-- `_fix_recommended_action` replaces an out-of-enum action type with
`wait_for_human`. -/
theorem fixRecommendedActionDict_actionType (act : List (String × PVal))
    (s : String) (f : List (String × PVal))
    (h1 : dGet act "action_type" = some (PVal.pstr s))
    (hs : validActionTypes.contains s = false)
    (h2 : fixRecommendedActionDict act = .ok f) :
    dGet f "action_type" = some (PVal.pstr "wait_for_human") := by
  unfold fixRecommendedActionDict at h2
  rw [h1] at h2
  cases hcf : pyFloat? ((dGet act "confidence").getD (.pfloat 0)) with
  | none => rw [hcf] at h2; simp at h2
  | some c =>
    rw [hcf] at h2
    cases hp : pyInt? ((dGet act "priority").getD (.pint 1)) with
    | none => rw [hp] at h2; simp at h2
    | some p =>
      rw [hp] at h2
      dsimp only at h2
      simp only [Option.getD_some, pyStr] at h2
      rw [hs] at h2
      simp only [Bool.false_eq_true, if_false] at h2
      injection h2 with h3
      rw [← h3]
      simp only [dGet]
      rw [List.find?_cons_of_pos _ (by simp)]
      rfl

/-- When the repaired object still fails validation, the typed default
error analysis is returned. -/
theorem stillInvalid_default (raw f : List (String × PVal))
    (h1 : pageAnalysisValid raw = false)
    (h2 : fixPageAnalysisErrors raw = .ok f)
    (h3 : pageAnalysisValid f = false) :
    validateAndFixPageAnalysis raw =
      .ok (getDefaultErrorResponse "Validation error") := by
  unfold validateAndFixPageAnalysis
  rw [h1, h2]
  simp [h3]

end GPTService

/-- The raw analysis of the counterexample: well-formed except for a
top-level confidence of `5`. -/
def claim4Raw : List (String × PVal) :=
  [("page_type", .pstr "job_detail"), ("confidence", .pfloat 5),
   ("form_count", .pint 0), ("has_apply_button", .pbool false),
   ("reasoning", .pstr "ok"), ("cta_candidates", .plist []),
   ("recommended_action", .pdict
     [("action_type", .pstr "no_action"), ("confidence", .pfloat (1/2)),
      ("reasoning", .pstr "Action reasoning"), ("target_element", .pnone),
      ("form_selector", .pnone), ("priority", .pint 1)])]

/-- Counterexample for C4 as stated: a top-level confidence of `5` lies in
`[1,10]`, but the repair pass zeroes it instead of dividing it by 10 — the
divide-by-10 rescue applies only to CTA-candidate confidences. -/
theorem Claim4_counterexample :
    GPTService.pageAnalysisValid claim4Raw = false ∧
    (GPTService.fixPageAnalysisErrors claim4Raw).map
      (fun d => dGet d "confidence") = .ok (some (PVal.pfloat 0)) ∧
    (0 : ℚ) ≠ 5 / 10 := by
  refine ⟨by decide, rfl, by norm_num⟩

/-- C4 (amended): the repair pass of `_fix_page_analysis_errors` gives every
missing required field its documented default; it resets a numeric top-level
confidence outside `[0,1]` to `0` (only CTA-candidate confidences in `[1,10]`
are divided by 10); it replaces an out-of-enum page type with `unknown`, an
out-of-enum CTA element type with `button`, and an out-of-enum recommended
action type with `wait_for_human`; and when the repaired object still fails
validation, the typed default analysis is returned. -/
theorem Claim4_amended_repair :
    GPTService.fixPageAnalysisErrors [] = .ok
      [("page_type", PVal.pstr "unknown"), ("confidence", PVal.pfloat 0),
       ("form_count", PVal.pint 0), ("has_apply_button", PVal.pbool false),
       ("reasoning", PVal.pstr "No reasoning provided"),
       ("cta_candidates", PVal.plist []),
       ("recommended_action", PVal.pdict
         (GPTService.defaultRecommendedAction
           "No action recommendation provided"))] ∧
    (∀ r q f, dGet r "confidence" = some (PVal.pfloat q) →
      ¬(0 ≤ q ∧ q ≤ 1) → GPTService.fixPageAnalysisErrors r = .ok f →
      dGet f "confidence" = some (PVal.pfloat 0)) ∧
    (∀ r s f, dGet r "page_type" = some (PVal.pstr s) →
      GPTService.validPageTypes.contains s = false →
      GPTService.fixPageAnalysisErrors r = .ok f →
      dGet f "page_type" = some (PVal.pstr "unknown")) ∧
    (∀ cta q f, dGet cta "confidence" = some (PVal.pfloat q) →
      GPTService.fixCtaCandidate cta = some f →
      dGet f "confidence" = some (PVal.pfloat
        (if 0 ≤ q ∧ q ≤ 1 then q
         else if 1 ≤ q ∧ q ≤ 10 then q / 10 else 0))) ∧
    (∀ cta s f, dGet cta "element_type" = some (PVal.pstr s) →
      GPTService.validElementTypes.contains s = false →
      GPTService.fixCtaCandidate cta = some f →
      dGet f "element_type" = some (PVal.pstr "button")) ∧
    (∀ act s f, dGet act "action_type" = some (PVal.pstr s) →
      GPTService.validActionTypes.contains s = false →
      GPTService.fixRecommendedActionDict act = .ok f →
      dGet f "action_type" = some (PVal.pstr "wait_for_human")) ∧
    (∀ raw f, GPTService.pageAnalysisValid raw = false →
      GPTService.fixPageAnalysisErrors raw = .ok f →
      GPTService.pageAnalysisValid f = false →
      GPTService.validateAndFixPageAnalysis raw =
        .ok (GPTService.getDefaultErrorResponse "Validation error")) := by
  refine ⟨rfl, ?_, ?_, ?_, ?_, ?_, ?_⟩
  · intro r q f h1 hq h2
    exact GPTService.fixChain_confidence r q f h1 hq h2
  · intro r s f h1 hs h2
    exact GPTService.fixChain_pageType r s f h1 hs h2
  · intro cta q f h1 h2
    exact GPTService.fixCtaCandidate_confidence cta q f h1 h2
  · intro cta s f h1 hs h2
    exact GPTService.fixCtaCandidate_elementType cta s f h1 hs h2
  · intro act s f h1 hs h2
    exact GPTService.fixRecommendedActionDict_actionType act s f h1 hs h2
  · intro raw f h1 h2 h3
    exact GPTService.stillInvalid_default raw f h1 h2 h3

/-- Witness for C4: on a response whose only key is a confidence of `5`,
the repair chain yields confidence `0`. -/
theorem Claim4_witness :
    dGet [("confidence", PVal.pfloat 0), ("page_type", PVal.pstr "unknown"),
      ("form_count", PVal.pint 0), ("has_apply_button", PVal.pbool false),
      ("reasoning", PVal.pstr "No reasoning provided"),
      ("cta_candidates", PVal.plist []),
      ("recommended_action", PVal.pdict
        (GPTService.defaultRecommendedAction
          "No action recommendation provided"))]
      "confidence" = some (PVal.pfloat 0) :=
  Claim4_amended_repair.2.1 [("confidence", PVal.pfloat 5)] 5
    [("confidence", PVal.pfloat 0), ("page_type", PVal.pstr "unknown"),
     ("form_count", PVal.pint 0), ("has_apply_button", PVal.pbool false),
     ("reasoning", PVal.pstr "No reasoning provided"),
     ("cta_candidates", PVal.plist []),
     ("recommended_action", PVal.pdict
       (GPTService.defaultRecommendedAction
         "No action recommendation provided"))]
    rfl (by norm_num) rfl

end FormFiller
